import Mathlib

/-!
Verification of the annotation aggregation and consensus-scoring engine of the
SuperAnnotate SDK (`lib/app/analytics/common.py`).

The development shallowly embeds the two consensus functions
(`instance_consensus`, `image_consensus`) and the aggregation function
(`aggregate_image_annotations_as_df`) over explicit Lean data types.

Modelling conventions:
* Python floats are modelled as exact rationals (`ℚ`); a Python
  `ZeroDivisionError` raised by `/` is modelled by an explicit check that the
  denominator is zero, producing an `Except.error`.
* Functions that can raise return `Except Err α`; a Python `raise` anywhere in
  the body aborts the whole call, exactly as `Except`'s bind does.
* The shapely geometry library is external to the repository; it is modelled by
  the `Shapely` interface below, which exposes exactly the operations the
  source invokes (`box`, `Polygon`, `Point` constructors, `.type`,
  `.intersection`, `.union`, `.area`, `.distance`, `.is_valid`).  Theorems over
  the engine quantify over every model of this interface; a concrete
  executable model (`BoxGeom`) built on axis-aligned rectangles and points is
  used to evaluate the engine on explicit inputs.
-/
set_option maxHeartbeats 4000000

deriving instance DecidableEq for Except

/-- Python exceptions raised by the consensus-scoring functions. -/
inductive ConsErr where
  /-- Python `ZeroDivisionError` from `intersect.area / union.area`. -/
  | zeroDivision
  /-- Python `NotImplementedError` from the final `else` of `instance_consensus`. -/
  | notImplemented
  /-- Python `KeyError`/`TypeError` when a row's `meta` payload does not have
  the fields the chosen `annot_type` requires. -/
  | badMeta
  /-- Python `NameError`: `annot_type` outside `bbox`/`polygon`/`point` leaves
  `inst` unbound in the geometry-building loop. -/
  | nameError

deriving DecidableEq

/-- Interface of the shapely geometry objects consumed by the engine.  `area`
and `distance` are rational-valued in the model (exact stand-ins for shapely's
floats); every theorem proved over this interface uses only properties stated
as explicit hypotheses. -/
class Shapely (G : Type) where
  /-- Models `shapely.geometry.box(minx, miny, maxx, maxy)`. -/
  mkBox : ℚ → ℚ → ℚ → ℚ → G
  /-- Models `shapely.geometry.Polygon(coords)`. -/
  mkPolygon : List (ℚ × ℚ) → G
  /-- Models `shapely.geometry.Point(x, y)`. -/
  mkPoint : ℚ → ℚ → G
  /-- Models `g.type` (the string `"Polygon"` or `"Point"` for the objects built here). -/
  geomType : G → String
  /-- Models `a.intersection(b)`. -/
  intersection : G → G → G
  /-- Models `a.union(b)`. -/
  union : G → G → G
  /-- Models `g.area`. -/
  area : G → ℚ
  /-- Models `a.distance(b)`. -/
  distance : G → G → ℚ
  /-- Models `g.is_valid`. -/
  is_valid : G → Bool

open Shapely

/-- Embedding of `instance_consensus` (common.py lines 506-524).

```python
if inst_1.type == inst_2.type == "Polygon":
    intersect = inst_1.intersection(inst_2)
    union = inst_1.union(inst_2)
    score = intersect.area / union.area
elif inst_1.type == inst_2.type == "Point":
    score = -1 * inst_1.distance(inst_2)
else:
    raise NotImplementedError
return score
```

The division raises Python's `ZeroDivisionError` when `union.area` is zero;
the model makes that branch explicit. -/
def instance_consensus {G : Type} [Shapely G] (inst_1 inst_2 : G) : Except ConsErr ℚ :=
  if geomType inst_1 = geomType inst_2 ∧ geomType inst_2 = "Polygon" then
    let intersect := intersection inst_1 inst_2
    let u := union inst_1 inst_2
    if area u = 0 then Except.error ConsErr.zeroDivision
    else Except.ok (area intersect / area u)
  else if geomType inst_1 = geomType inst_2 ∧ geomType inst_2 = "Point" then
    Except.ok (-1 * distance inst_1 inst_2)
  else
    Except.error ConsErr.notImplemented

/-! ### A concrete executable geometry model

Axis-aligned rectangles (what `box` builds) and points, with exact
intersection/union areas for the rectangle-rectangle case — the only case the
engine ever evaluates one level deep.  `distance` is a rational stand-in for
the Euclidean point distance: it is zero exactly when the points coincide,
positive otherwise, and strictly monotone in the true distance, which are the
only properties of `distance` any theorem below relies on (stated there as
hypotheses).  Polygon-chain validity is not modelled (`is_valid` is `false` on
`polyNode`); all concrete evaluations below use rectangles and points. -/
inductive BoxGeom where
  | rect (x1 y1 x2 y2 : ℚ)
  | pt (x y : ℚ)
  | interNode (a b : BoxGeom)
  | unionNode (a b : BoxGeom)
  | polyNode (pts : List (ℚ × ℚ))

deriving DecidableEq

/-- Area of the intersection of two axis-aligned rectangles. -/
def rectInterArea (a b c d a' b' c' d' : ℚ) : ℚ :=
  max 0 (min c c' - max a a') * max 0 (min d d' - max b b')

def BoxGeom.area : BoxGeom → ℚ
  | .rect x1 y1 x2 y2 => max 0 (x2 - x1) * max 0 (y2 - y1)
  | .pt _ _ => 0
  | .interNode (.rect a b c d) (.rect a' b' c' d') => rectInterArea a b c d a' b' c' d'
  | .unionNode (.rect a b c d) (.rect a' b' c' d') =>
      max 0 (c - a) * max 0 (d - b) + max 0 (c' - a') * max 0 (d' - b')
        - rectInterArea a b c d a' b' c' d'
  | _ => 0

def BoxGeom.dist : BoxGeom → BoxGeom → ℚ
  | .pt x y, .pt x' y' => (x - x') ^ 2 + (y - y') ^ 2
  | _, _ => 0

def BoxGeom.geomType : BoxGeom → String
  | .pt _ _ => "Point"
  | _ => "Polygon"

def BoxGeom.is_valid : BoxGeom → Bool
  | .rect x1 y1 x2 y2 => decide (x1 < x2) && decide (y1 < y2)
  | .pt _ _ => true
  | _ => false

instance : Shapely BoxGeom where
  mkBox := BoxGeom.rect
  mkPolygon := BoxGeom.polyNode
  mkPoint := BoxGeom.pt
  geomType := BoxGeom.geomType
  intersection := BoxGeom.interNode
  union := BoxGeom.unionNode
  area := BoxGeom.area
  distance := BoxGeom.dist
  is_valid := BoxGeom.is_valid

/-! ### The instance matcher: `image_consensus` (common.py lines 527-655)

The dataframe handed to `image_consensus` is modelled row-major.  Only the
columns the function reads are carried: `imageName`, `folderName`, `meta`,
`className`, `creatorEmail`, `attributes` (the last is an opaque payload
copied into the output).  The `meta` payload is modelled by the three shapes
the geometry-building loop consumes plus a catch-all.

Python's ordered dict `projects_shaply_objs` is modelled by an association
list in key-insertion order; its keys are unique by construction, so the
source's key-based lookups (`visited[other_proj]`) coincide with the
positional accesses used here.  Each recursive function returns
`Except ConsErr _`: an error anywhere aborts the whole call, exactly like the
Python exceptions (`instance_consensus` raising mid-loop, a malformed `meta`,
or an unknown `annot_type` leaving `inst` unbound).

Besides the `image_data` rows the embedding also records, for each completed
match group, the group itself (the `max_instances` list), and a trace of every
`instance_consensus` invocation with the two instances' class names; the trace
and groups are observational enrichments that do not influence the computed
rows, and exist so that temporal claims about scorer invocations and claims
about match groups can be stated. -/
/-- Geometry payload of one dataframe row (`row["meta"]`), as read by the
matching pass: `{"points": {x1, x2, y1, y2}}` for bbox, `{"points": [...]}`
for polygon, `{"x": , "y": }` for point. -/
inductive CMeta where
  | bboxPoints (x1 x2 y1 y2 : ℚ)
  | polyPoints (coords : List ℚ)
  | pointXY (x y : ℚ)
  | otherMeta

deriving DecidableEq

/-- One row of the dataframe consumed by `image_consensus`. -/
structure CRow where
  imageName : String
  folderName : Option String
  className : Option String
  creatorEmail : Option String
  attributes : List String
  meta : CMeta

deriving DecidableEq

/-- One entry of a `projects_shaply_objs` bucket: the tuple
`(inst, className, creatorEmail, attributes)` built on line 587. -/
structure InstData (G : Type) where
  inst : G
  className : Option String
  creatorEmail : Option String
  attributes : List String

deriving DecidableEq

/-- One row of the `image_data` output (column-major in the source; row-major
here, the eight columns appended together on lines 628-635 / 645-652). -/
structure ConsensusRow where
  creatorEmail : Option String
  attributes : List String
  area : ℚ
  imageName : String
  instanceId : ℕ
  className : Option String
  folderName : Option String
  score : ℚ

deriving DecidableEq

/-- Trace entry: one `instance_consensus` invocation, with the class names of
the two instances it was invoked on. -/
structure ScoreCall where
  currClass : Option String
  otherClass : Option String

deriving DecidableEq

/-- The `shapely_format` construction for polygons (lines 579-581): consecutive
coordinate pairs, a trailing odd coordinate dropped. -/
def pairUp : List ℚ → List (ℚ × ℚ)
  | x :: y :: rest => (x, y) :: pairUp rest
  | _ => []

/-- Geometry-object construction per `annot_type` (lines 572-584).  A payload
without the required fields raises (`KeyError`/`TypeError`); an `annot_type`
outside the three supported ones leaves `inst` unbound (`NameError`). -/
def buildGeom {G : Type} [Shapely G] (annot_type : String) (m : CMeta) : Except ConsErr G :=
  if annot_type = "bbox" then
    match m with
    | CMeta.bboxPoints x1 x2 y1 y2 =>
        Except.ok (mkBox (min x1 x2) (min y1 y2) (max x1 x2) (max y1 y2))
    | _ => Except.error ConsErr.badMeta
  else if annot_type = "polygon" then
    match m with
    | CMeta.polyPoints coords => Except.ok (mkPolygon (pairUp coords))
    | _ => Except.error ConsErr.badMeta
  else if annot_type = "point" then
    match m with
    | CMeta.pointXY x y => Except.ok (mkPoint x y)
    | _ => Except.error ConsErr.badMeta
  else Except.error ConsErr.nameError

/-- Model of `projects_shaply_objs[key].append(d)` on an association list. -/
def appendEntry {G : Type} (l : List (Option String × List (InstData G)))
    (key : Option String) (d : InstData G) : List (Option String × List (InstData G)) :=
  match l with
  | [] => []
  | (k, insts) :: rest =>
      if k = key then (k, insts ++ [d]) :: rest
      else (k, insts) :: appendEntry rest key d

/-- Lines 569-570: create the bucket for a first-seen folder name. -/
def ensureKey {G : Type} (l : List (Option String × List (InstData G))) (key : Option String) :
    List (Option String × List (InstData G)) :=
  if l.any (fun p => decide (p.1 = key)) then l else l ++ [(key, [])]

/-- Build `projects_shaply_objs` (lines 566-592): iterate the image's rows in
order, create the folder bucket, build the geometry object, and append it when
`is_valid` holds (invalid geometries are dropped with a warning). -/
def buildProjObjs {G : Type} [Shapely G] (annot_type : String)
    (acc : List (Option String × List (InstData G))) :
    List CRow → Except ConsErr (List (Option String × List (InstData G)))
  | [] => Except.ok acc
  | row :: rest =>
      let acc1 := ensureKey acc row.folderName
      match buildGeom (G := G) annot_type row.meta with
      | Except.error e => Except.error e
      | Except.ok inst =>
          let acc2 := if is_valid inst then
              appendEntry acc1 row.folderName ⟨inst, row.className, row.creatorEmail, row.attributes⟩
            else acc1
          buildProjObjs annot_type acc2 rest

/-- State of the best-candidate search of lines 609-623: `max_score` (`none`
models the initial `float("-inf")` of point runs) and the best
`(instance, index)` so far (`max_inst_data`, `max_inst_id`). -/
structure BestAcc (G : Type) where
  maxScore : Option ℚ
  best : Option (InstData G × ℕ)

/-- The comparison `score > max_score`, where `none` stands for `float("-inf")`. -/
def scoreBeats (s : ℚ) (m : Option ℚ) : Bool :=
  match m with
  | none => true
  | some v => decide (v < s)

/-- Inner candidate loop (lines 615-623).  Note the order the source fixes:
`instance_consensus` is invoked first (line 619) and the
`other_class == curr_class` test only guards the `max_score` update
(line 620). -/
def bestMatch {G : Type} [Shapely G] (curr_inst : G) (curr_class : Option String) :
    List (InstData G) → List Bool → ℕ → BestAcc G →
    Except ConsErr (List ScoreCall × BestAcc G)
  | [], _, _, acc => Except.ok ([], acc)
  | other :: rest, vis, idx, acc =>
      if vis.headD false then
        bestMatch curr_inst curr_class rest vis.tail (idx + 1) acc
      else
        match instance_consensus curr_inst other.inst with
        | Except.error e => Except.error e
        | Except.ok s =>
            let acc1 := if scoreBeats s acc.maxScore && decide (other.className = curr_class) then
                BestAcc.mk (some s) (some (other, idx))
              else acc
            match bestMatch curr_inst curr_class rest vis.tail (idx + 1) acc1 with
            | Except.error e => Except.error e
            | Except.ok (calls, accF) =>
                Except.ok (ScoreCall.mk curr_class other.className :: calls, accF)

/-- Model of `visited_instances[key][idx] = True`, with the bucket addressed by its
position `k` (bucket keys are unique, so this coincides with the source's
key lookup). -/
def setVisited (vis : List (List Bool)) (k idx : ℕ) : List (List Bool) :=
  vis.set k ((vis.getD k []).set idx true)

/-- Folder loop building `max_instances` for one current instance
(lines 603-626).  `k` is the position of the bucket being visited; `j` the
current instance's index in its own bucket. -/
def matchOthers {G : Type} [Shapely G] (annot_type : String)
    (curr_proj : Option String) (curr : InstData G) (j : ℕ) :
    List (Option String × List (InstData G)) → ℕ → List (List Bool) →
    List (Option String × InstData G) → List ScoreCall →
    Except ConsErr (List ScoreCall × List (Option String × InstData G) × List (List Bool))
  | [], _, vis, maxInstances, calls => Except.ok (calls, maxInstances, vis)
  | (key, insts) :: rest, k, vis, maxInstances, calls =>
      if key = curr_proj then
        matchOthers annot_type curr_proj curr j rest (k + 1) (setVisited vis k j)
          (maxInstances ++ [(curr_proj, curr)]) calls
      else
        let init : BestAcc G :=
          ⟨if annot_type = "polygon" ∨ annot_type = "bbox" then some 0 else none, none⟩
        match bestMatch curr.inst curr.className insts (vis.getD k []) 0 init with
        | Except.error e => Except.error e
        | Except.ok (calls1, accF) =>
            match accF.best with
            | some (d, idx) =>
                matchOthers annot_type curr_proj curr j rest (k + 1) (setVisited vis k idx)
                  (maxInstances ++ [(key, d)]) (calls ++ calls1)
            | none =>
                matchOthers annot_type curr_proj curr j rest (k + 1) vis
                  maxInstances (calls ++ calls1)

/-- Line 644, `proj_cons += 1.0 if score <= 0 else score`. -/
def clampScore (s : ℚ) : ℚ := if s ≤ 0 then 1 else s

/-- The `proj_cons` accumulation for one group member (lines 638-644): clamped
pairwise scores against every member from a different folder, with the
invocations traced. -/
def groupConsensus {G : Type} [Shapely G] (m : Option String × InstData G) :
    List (Option String × InstData G) → Except ConsErr (List ScoreCall × ℚ)
  | [] => Except.ok ([], 0)
  | other :: rest =>
      if m.1 = other.1 then groupConsensus m rest
      else
        match instance_consensus m.2.inst other.2.inst with
        | Except.error e => Except.error e
        | Except.ok s =>
            match groupConsensus m rest with
            | Except.error e => Except.error e
            | Except.ok (calls, acc) =>
                Except.ok (ScoreCall.mk m.2.className other.2.className :: calls,
                  clampScore s + acc)

/-- One output row (the eight appends of lines 628-635 resp. 645-652). -/
def emitRow {G : Type} [Shapely G] (image_name : String) (instId : ℕ) (s : ℚ)
    (m : Option String × InstData G) : ConsensusRow :=
  ⟨m.2.creatorEmail, m.2.attributes, area m.2.inst, image_name, instId, m.2.className, m.1, s⟩

/-- The member loop of the multi-member branch (lines 637-652): each member's
score is its `proj_cons` divided by `len(all_projects) - 1`. -/
def emitGroupLoop {G : Type} [Shapely G] (image_name : String) (nProj instId : ℕ)
    (group : List (Option String × InstData G)) :
    List (Option String × InstData G) → Except ConsErr (List ScoreCall × List ConsensusRow)
  | [] => Except.ok ([], [])
  | m :: rest =>
      match groupConsensus m group with
      | Except.error e => Except.error e
      | Except.ok (calls1, projCons) =>
          match emitGroupLoop image_name nProj instId group rest with
          | Except.error e => Except.error e
          | Except.ok (calls2, rows) =>
              Except.ok (calls1 ++ calls2,
                emitRow image_name instId (projCons / ((nProj : ℚ) - 1)) m :: rows)

/-- Rows emitted for one completed match group (lines 627-652): a lone member
gets score `0`; otherwise every member is scored by `emitGroupLoop`.  `nProj`
is `len(all_projects)`. -/
def emitGroupRows {G : Type} [Shapely G] (image_name : String) (nProj instId : ℕ)
    (group : List (Option String × InstData G)) :
    Except ConsErr (List ScoreCall × List ConsensusRow) :=
  match group with
  | [m] => Except.ok ([], [emitRow image_name instId 0 m])
  | ms => emitGroupLoop image_name nProj instId ms ms

/-- One completed match group: the fresh sequential id it received, the
`max_instances` list, and the rows it contributed to `image_data`. -/
structure GroupOut (G : Type) where
  instId : ℕ
  group : List (Option String × InstData G)
  rows : List ConsensusRow

deriving DecidableEq

/-- Instance loop over one bucket (lines 599-653): skip visited instances,
build the match group, emit its rows, bump `instance_id`. -/
def matchProjInsts {G : Type} [Shapely G] (annot_type image_name : String) (nProj : ℕ)
    (projObjs : List (Option String × List (InstData G))) (i : ℕ) (key : Option String) :
    List (InstData G) → ℕ → List (List Bool) → ℕ → List (GroupOut G) → List ScoreCall →
    Except ConsErr (List (List Bool) × ℕ × List (GroupOut G) × List ScoreCall)
  | [], _, vis, instId, out, calls => Except.ok (vis, instId, out, calls)
  | d :: rest, j, vis, instId, out, calls =>
      if (vis.getD i []).getD j false then
        matchProjInsts annot_type image_name nProj projObjs i key rest (j + 1) vis instId out calls
      else
        match matchOthers annot_type key d j projObjs 0 vis [] [] with
        | Except.error e => Except.error e
        | Except.ok (calls1, g, vis1) =>
            match emitGroupRows image_name nProj instId g with
            | Except.error e => Except.error e
            | Except.ok (calls2, rows) =>
                matchProjInsts annot_type image_name nProj projObjs i key rest (j + 1) vis1
                  (instId + 1) (out ++ [⟨instId, g, rows⟩]) (calls ++ calls1 ++ calls2)

/-- Outer folder loop (line 598). -/
def matchProjs {G : Type} [Shapely G] (annot_type image_name : String) (nProj : ℕ)
    (projObjs : List (Option String × List (InstData G))) :
    List (Option String × List (InstData G)) → ℕ → List (List Bool) → ℕ →
    List (GroupOut G) → List ScoreCall →
    Except ConsErr (List (GroupOut G) × List ScoreCall)
  | [], _, _, _, out, calls => Except.ok (out, calls)
  | (key, insts) :: rest, i, vis, instId, out, calls =>
      match matchProjInsts annot_type image_name nProj projObjs i key insts 0 vis instId out calls with
      | Except.error e => Except.error e
      | Except.ok (vis1, instId1, out1, calls1) =>
          matchProjs annot_type image_name nProj projObjs rest (i + 1) vis1 instId1 out1 calls1

/-- Model of `list(set(df["folderName"]))` (line 550); only its length is consumed. -/
def pyDistinct (l : List (Option String)) : List (Option String) :=
  l.foldl (fun acc x => if acc.any (fun y => decide (y = x)) then acc else acc ++ [x]) []

/-- The completed matching pass of `image_consensus` (lines 527-655),
retaining the groups and the invocation trace. -/
structure MatchResult (G : Type) where
  groups : List (GroupOut G)
  calls : List ScoreCall

deriving DecidableEq

/-- Embedding of `image_consensus` (lines 527-655), instrumented: filters the
dataframe to `image_name`, takes `all_projects` from the **whole** dataframe,
builds the per-folder geometry buckets, and runs the matching loops. -/
def image_consensus_run {G : Type} [Shapely G] (df : List CRow)
    (image_name annot_type : String) : Except ConsErr (MatchResult G) :=
  let image_df := df.filter (fun r => decide (r.imageName = image_name))
  let all_projects := pyDistinct (df.map (fun r => r.folderName))
  match buildProjObjs (G := G) annot_type [] image_df with
  | Except.error e => Except.error e
  | Except.ok projObjs =>
      let vis := projObjs.map (fun p => List.replicate p.2.length false)
      match matchProjs annot_type image_name all_projects.length projObjs projObjs 0 vis 0 [] [] with
      | Except.error e => Except.error e
      | Except.ok (out, calls) => Except.ok ⟨out, calls⟩

/-- The `image_data` rows of `image_consensus`, in emission order. -/
def image_consensus {G : Type} [Shapely G] (df : List CRow)
    (image_name annot_type : String) : Except ConsErr (List ConsensusRow) :=
  (image_consensus_run (G := G) df image_name annot_type).map
    (fun r => r.groups.flatMap (fun g => g.rows))

/-! ### Concrete dataframes used to evaluate the matcher -/
/-- Three folders in the dataframe; folders `A` and `B` annotate image `img`
with identical `"car"` boxes, folder `C` only annotates a different image. -/
def c1df : List CRow := [
  ⟨"img", some ("A"), some ("car"), some ("annA"), [], CMeta.bboxPoints 0 2 0 2⟩,
  ⟨"img", some ("B"), some ("car"), some ("annB"), [], CMeta.bboxPoints 0 2 0 2⟩,
  ⟨"img2", some ("C"), some ("car"), some ("annC"), [], CMeta.bboxPoints 0 2 0 2⟩]

/-- Two folders annotating `img` with identical boxes of different classes. -/
def c2df : List CRow := [
  ⟨"img", some ("A"), some ("car"), some ("annA"), [], CMeta.bboxPoints 0 2 0 2⟩,
  ⟨"img", some ("B"), some ("bus"), some ("annB"), [], CMeta.bboxPoints 0 2 0 2⟩]

/-- What holds of every completed match group of a run: its rows are exactly
what `emitGroupRows` produced for it at its own fresh id, every member comes
from one of the image's folder buckets, and all members share one class
name. -/
def GoodGroup {G : Type} [Shapely G] (image_name : String) (nProj : ℕ)
    (projObjs : List (Option String × List (InstData G))) (g : GroupOut G) : Prop :=
  (∃ cs, emitGroupRows image_name nProj g.instId g.group = Except.ok (cs, g.rows)) ∧
  ∀ m ∈ g.group, (∃ l, (m.1, l) ∈ projObjs ∧ m.2 ∈ l) ∧
    ∀ m' ∈ g.group, m.2.className = m'.2.className

/-- The single group (two members, folders `A` and `B`) of the `c1df` run. -/
def c1grp : GroupOut BoxGeom :=
  ⟨0,
   [(some ("A"), ⟨BoxGeom.rect 0 0 2 2, some ("car"), some ("annA"), []⟩),
    (some ("B"), ⟨BoxGeom.rect 0 0 2 2, some ("car"), some ("annB"), []⟩)],
   [⟨some ("annA"), [], 4, "img", 0, some ("car"), some ("A"), 1/2⟩,
    ⟨some ("annB"), [], 4, "img", 0, some ("car"), some ("B"), 1/2⟩]⟩

/-- The full instrumented result of the `c1df` run. -/
def c1res : MatchResult BoxGeom :=
  ⟨[c1grp],
   [⟨some ("car"), some ("car")⟩, ⟨some ("car"), some ("car")⟩, ⟨some ("car"), some ("car")⟩]⟩

/-- One folder annotating `img` with a single `"car"` box. -/
def c6df : List CRow := [⟨"img", some ("A"), some ("car"), some ("annA"), [], CMeta.bboxPoints 0 2 0 2⟩]

/-- The folder buckets built for the `c6df` run. -/
def c6objs : List (Option String × List (InstData BoxGeom)) :=
  [(some ("A"), [⟨BoxGeom.rect 0 0 2 2, some ("car"), some ("annA"), []⟩])]

/-- The single group member of the `c6df` run. -/
def c6mem : Option String × InstData BoxGeom :=
  (some ("A"), ⟨BoxGeom.rect 0 0 2 2, some ("car"), some ("annA"), []⟩)

/-- The single output row of the `c6df` run. -/
def c6row : ConsensusRow :=
  ⟨some ("annA"), [], 4, "img", 0, some ("car"), some ("A"), 0⟩

/-- The single (singleton) group of the `c6df` run. -/
def c6grp : GroupOut BoxGeom := ⟨0, [c6mem], [c6row]⟩

/-- The instrumented result of the `c6df` run: one singleton group, one row
with score `0`. -/
def c6res : MatchResult BoxGeom := ⟨[c6grp], []⟩

/-! ### The corpus aggregator: `aggregate_image_annotations_as_df`
(common.py lines 139-503)

The filesystem under the export root is modelled as data: `classes/classes.json`
is either absent or holds a parsed, well-formed class list (a malformed file
would raise in `json.load`/key accesses before any aggregation logic runs);
every other `.json` file is a `RootFile` carrying its directory components
relative to the root, its file name, and its parsed content.  Glob results are
returned in the order of the `files` list.  JSON scalars that the aggregation
merely copies (geometry payloads, colors, flags, timestamps) are carried as
opaque `JVal` values; `pd.to_datetime` is pandas-internal normalization whose
output is opaque to every claim, modelled as the identity on the payload.  The
column-major `annotation_data` dict is modelled row-major: `__append_annotation`
fills absent keys with `None`, so a row is a record of `Option` fields with
`none` defaults. -/
/-- An opaque JSON value copied through the aggregation. -/
inductive JVal where
  | null
  | num (q : ℚ)
  | str (s : String)
  | boolean (b : Bool)
  | numList (xs : List ℚ)
  | blob (tag : String)

deriving DecidableEq

/-- One attribute of an attribute group in `classes.json`. -/
structure AttrDef where
  name : String

deriving DecidableEq

/-- One attribute group of a class in `classes.json`. -/
structure AttrGroupDef where
  name : String
  attributes : List AttrDef

deriving DecidableEq

/-- One entry of `classes.json`. -/
structure ClassDef where
  name : String
  color : JVal
  attribute_groups : List AttrGroupDef

deriving DecidableEq

/-- One entry of an instance's `attributes` list. -/
structure JsonAttribute where
  groupName : Option String
  name : Option String

deriving DecidableEq

/-- A `createdBy`/`updatedBy` block; `none` models both an absent block and a
falsy (empty) one, which lines 264/272 treat alike. -/
structure Actor where
  email : Option JVal
  role : Option JVal

deriving DecidableEq

/-- One entry of an export file's `instances` list; absent JSON keys are
`none`. -/
structure JsonInstance where
  type : Option String := none
  className : Option String := none
  attributes : Option (List JsonAttribute) := none
  points : Option JVal := none
  x : Option JVal := none
  y : Option JVal := none
  cx : Option JVal := none
  cy : Option JVal := none
  rx : Option JVal := none
  ry : Option JVal := none
  angle : Option JVal := none
  parts : Option JVal := none
  connections : Option JVal := none
  groupId : Option JVal := none
  locked : Option JVal := none
  visible : Option JVal := none
  trackingId : Option JVal := none
  error : Option JVal := none
  probability : Option JVal := none
  pointLabels : Option JVal := none
  createdAt : Option JVal := none
  updatedAt : Option JVal := none
  creationType : Option JVal := none
  createdBy : Option Actor := none
  updatedBy : Option Actor := none

deriving DecidableEq

/-- One entry of an export file's `comments` list (the four fields read with
`[]` on lines 317-321 are required: a comment lacking them would raise, which
no claim exercises). -/
structure JsonComment where
  x : JVal
  y : JVal
  correspondence : JVal
  resolved : JVal
  createdAt : Option JVal
  updatedAt : Option JVal
  creationType : Option JVal
  createdBy : Option Actor
  updatedBy : Option Actor

deriving DecidableEq

/-- The `metadata` block of an export file (read with `.get`, lines 251-256). -/
structure MetaBlock where
  height : Option JVal := none
  width : Option JVal := none
  status : Option JVal := none
  pinned : Option JVal := none
  annotatorEmail : Option JVal := none
  qaEmail : Option JVal := none

deriving DecidableEq

/-- A parsed per-image annotation export file. -/
structure ExportJson where
  metadata : MetaBlock
  instances : List JsonInstance
  comments : List JsonComment
  tags : List String

deriving DecidableEq

/-- One `.json` file under the export root: directory components relative to
the root, file name, parsed content. -/
structure RootFile where
  dirs : List String
  name : String
  content : ExportJson

deriving DecidableEq

/-- The export root: the (possibly absent) parsed `classes/classes.json` and
the remaining `.json` files. -/
structure ProjectRoot where
  classesJson : Option (List ClassDef)
  files : List RootFile

deriving DecidableEq

/-- The `meta` payload of an aggregated row (lines 354-373 and 318-322). -/
inductive AMeta where
  | points (v : JVal)
  | pointXY (x y : JVal)
  | ellipse (cx cy rx ry angle : JVal)
  | maskParts (v : JVal)
  | template (connections points : JVal)
  | commentMeta (x y comments : JVal)

deriving DecidableEq

/-- Python exceptions raised by the aggregation. -/
inductive AggErr where
  /-- Python `AppException(DEPRICATED_DOCUMENT_VIDEO_MESSAGE)` (line 178). -/
  | depricatedDocVideo
  /-- Python `AppException` for a missing classes file (line 221). -/
  | missingClassesFile
  /-- Python `KeyError` from a required geometry field absent from an instance. -/
  | keyError

deriving DecidableEq

/-- One row of the aggregated table: the keys of `annotation_data`
(lines 182-217), `none` for keys `__append_annotation` fills with `None`. -/
structure AnnRecord where
  imageName : Option String := none
  imageHeight : Option JVal := none
  imageWidth : Option JVal := none
  imageStatus : Option JVal := none
  imagePinned : Option JVal := none
  instanceId : Option ℕ := none
  className : Option String := none
  attributeGroupName : Option String := none
  attributeName : Option String := none
  type : Option String := none
  error : Option JVal := none
  locked : Option JVal := none
  visible : Option JVal := none
  trackingId : Option JVal := none
  probability : Option JVal := none
  pointLabels : Option JVal := none
  meta : Option AMeta := none
  classColor : Option JVal := none
  groupId : Option JVal := none
  createdAt : Option JVal := none
  creatorRole : Option JVal := none
  creationType : Option JVal := none
  creatorEmail : Option JVal := none
  updatedAt : Option JVal := none
  updatorRole : Option JVal := none
  updatorEmail : Option JVal := none
  folderName : Option String := none
  imageAnnotator : Option JVal := none
  imageQA : Option JVal := none
  commentResolved : Option JVal := none
  tag : Option String := none

deriving DecidableEq

/-- A row with every column `None`. -/
def AnnRecord.empty : AnnRecord := {}

/-- Python dict assignment `d[k] = v`: replace in place or append. -/
def dictInsert {β : Type} (l : List (String × β)) (k : String) (v : β) :
    List (String × β) :=
  match l with
  | [] => [(k, v)]
  | (k0, v0) :: rest => if k0 = k then (k0, v) :: rest else (k0, v0) :: dictInsert rest k v

/-- Python dict lookup `d.get(k)`. -/
def dictLookup {β : Type} (l : List (String × β)) (k : String) : Option β :=
  match l with
  | [] => none
  | (k0, v) :: rest => if k0 = k then some v else dictLookup rest k

/-- The dict `class_name_to_color` (lines 229-232); the source fills both dicts in one
loop over `classes_json`, whose per-dict effect is this fold. -/
def buildColorMap (classes : List ClassDef) : List (String × JVal) :=
  classes.foldl (fun m c => dictInsert m c.name c.color) []

/-- The dict `class_group_name_to_values` (lines 233-239). -/
def buildGroupMap (classes : List ClassDef) :
    List (String × List (String × List String)) :=
  classes.foldl (fun m c => dictInsert m c.name
    (c.attribute_groups.foldl
      (fun gm g => dictInsert gm g.name (g.attributes.map (fun a => a.name))) [])) []

/-- Model of `pd.to_datetime`: pandas-internal timestamp normalization, opaque to every
claim; modelled as the identity on the raw payload. -/
def pd_to_datetime (v : Option JVal) : Option JVal := v

/-- The seven user-metadata columns (lines 259-284). -/
structure UserMeta where
  createdAt : Option JVal
  creatorRole : Option JVal
  creatorEmail : Option JVal
  creationType : Option JVal
  updatedAt : Option JVal
  updatorRole : Option JVal
  updatorEmail : Option JVal

deriving DecidableEq

/-- Embedding of `__get_user_metadata` (lines 259-284). -/
def getUserMeta (createdAt updatedAt creationType : Option JVal)
    (createdBy updatedBy : Option Actor) : UserMeta :=
  ⟨pd_to_datetime createdAt,
   createdBy.bind (fun a => a.role),
   createdBy.bind (fun a => a.email),
   creationType,
   pd_to_datetime updatedAt,
   updatedBy.bind (fun a => a.role),
   updatedBy.bind (fun a => a.email)⟩

/-- The per-type geometry payload dispatch (lines 354-373): a required field
absent from the instance raises `KeyError`; an unlisted type yields no
payload. -/
def extractMeta (annType : String) (ann : JsonInstance) : Except AggErr (Option AMeta) :=
  if annType = "bbox" ∨ annType = "polygon" ∨ annType = "polyline" ∨ annType = "cuboid" then
    match ann.points with
    | some v => Except.ok (some (AMeta.points v))
    | none => Except.error AggErr.keyError
  else if annType = "point" then
    match ann.x, ann.y with
    | some x, some y => Except.ok (some (AMeta.pointXY x y))
    | _, _ => Except.error AggErr.keyError
  else if annType = "ellipse" then
    match ann.cx, ann.cy, ann.rx, ann.ry, ann.angle with
    | some cx, some cy, some rx, some ry, some angle =>
        Except.ok (some (AMeta.ellipse cx cy rx ry angle))
    | _, _, _, _, _ => Except.error AggErr.keyError
  else if annType = "mask" then
    match ann.parts with
    | some v => Except.ok (some (AMeta.maskParts v))
    | none => Except.error AggErr.keyError
  else if annType = "template" then
    match ann.connections, ann.points with
    | some c, some p => Except.ok (some (AMeta.template c p))
    | _, _ => Except.error AggErr.keyError
  else Except.ok none

/-- The `annotation_dict` of one instance row (lines 384-401 / 428-447),
`__append_annotation`-completed with `None` for the remaining columns. -/
def mkInstRecord (image_name : String) (imeta : MetaBlock) (instId : ℕ)
    (cname : String) (agroup aname : Option String) (annType : String)
    (ann : JsonInstance) (meta : Option AMeta) (color : JVal)
    (folderName : Option String) (um : UserMeta) : AnnRecord :=
  { AnnRecord.empty with
    imageName := some image_name,
    instanceId := some instId,
    className := some cname,
    attributeGroupName := agroup,
    attributeName := aname,
    type := some annType,
    locked := ann.locked,
    visible := ann.visible,
    trackingId := ann.trackingId,
    meta := meta,
    error := ann.error,
    probability := ann.probability,
    pointLabels := ann.pointLabels,
    classColor := some color,
    groupId := ann.groupId,
    folderName := folderName,
    createdAt := um.createdAt,
    creatorRole := um.creatorRole,
    creatorEmail := um.creatorEmail,
    creationType := um.creationType,
    updatedAt := um.updatedAt,
    updatorRole := um.updatorRole,
    updatorEmail := um.updatorEmail,
    imageHeight := imeta.height,
    imageWidth := imeta.width,
    imageStatus := imeta.status,
    imagePinned := imeta.pinned,
    imageAnnotator := imeta.annotatorEmail,
    imageQA := imeta.qaEmail }

/-- The per-attribute validation of lines 405-427: an unknown group name or an
unknown attribute name within the group skips that one attribute. -/
def attrRecord (gvals : List (String × List String))
    (mk : Option String → Option String → AnnRecord) (a : JsonAttribute) :
    Option AnnRecord :=
  match a.groupName with
  | none => none
  | some gname =>
      match dictLookup gvals gname with
      | none => none
      | some names =>
          match a.name with
          | none => none
          | some nm => if nm ∈ names then some (mk (some gname) (some nm)) else none

/-- Processing of one instance (lines 337-452): default the type to `"mask"`,
skip the instance when its class name is missing or unknown, extract the
geometry payload, then emit one record (no attributes) or one record per
validating attribute. -/
def processInstance (colorMap : List (String × JVal))
    (groupMap : List (String × List (String × List String)))
    (image_name : String) (imeta : MetaBlock) (folderName : Option String)
    (instId : ℕ) (ann : JsonInstance) : Except AggErr (List AnnRecord) :=
  let annType := ann.type.getD ("mask")
  match ann.className with
  | none => Except.ok []
  | some cname =>
      match dictLookup colorMap cname with
      | none => Except.ok []
      | some color =>
          match extractMeta annType ann with
          | Except.error e => Except.error e
          | Except.ok meta =>
              let um := getUserMeta ann.createdAt ann.updatedAt ann.creationType
                ann.createdBy ann.updatedBy
              let mk := fun agroup aname => mkInstRecord image_name imeta instId cname
                agroup aname annType ann meta color folderName um
              match ann.attributes with
              | none => Except.ok [mk none none]
              | some [] => Except.ok [mk none none]
              | some attrs =>
                  let gvals := (dictLookup groupMap cname).getD []
                  Except.ok (attrs.filterMap (attrRecord gvals mk))

/-- The instance loop of one file (lines 337-452): `annotation_instance_id`
advances only when the instance contributed at least one record
(lines 451-452). -/
def processInstances (colorMap : List (String × JVal))
    (groupMap : List (String × List (String × List String)))
    (image_name : String) (imeta : MetaBlock) (folderName : Option String) :
    List JsonInstance → ℕ → Except AggErr (List AnnRecord)
  | [], _ => Except.ok []
  | ann :: rest, instId =>
      match processInstance colorMap groupMap image_name imeta folderName instId ann with
      | Except.error e => Except.error e
      | Except.ok rows =>
          match processInstances colorMap groupMap image_name imeta folderName rest
            (if rows.length > 0 then instId + 1 else instId) with
          | Except.error e => Except.error e
          | Except.ok rest2 => Except.ok (rows ++ rest2)

/-- A comment row (lines 315-331); comment rows carry no `folderName`. -/
def mkCommentRecord (image_name : String) (imeta : MetaBlock) (c : JsonComment) :
    AnnRecord :=
  let um := getUserMeta c.createdAt c.updatedAt c.creationType c.createdBy c.updatedBy
  { AnnRecord.empty with
    type := some ("comment"),
    meta := some (AMeta.commentMeta c.x c.y c.correspondence),
    commentResolved := some c.resolved,
    createdAt := um.createdAt,
    creatorRole := um.creatorRole,
    creatorEmail := um.creatorEmail,
    creationType := um.creationType,
    updatedAt := um.updatedAt,
    updatorRole := um.updatorRole,
    updatorEmail := um.updatorEmail,
    imageName := some image_name,
    imageHeight := imeta.height,
    imageWidth := imeta.width,
    imageStatus := imeta.status,
    imagePinned := imeta.pinned,
    imageAnnotator := imeta.annotatorEmail,
    imageQA := imeta.qaEmail }

/-- A tag row (lines 332-336); no user metadata, no `folderName`. -/
def mkTagRecord (image_name : String) (imeta : MetaBlock) (t : String) : AnnRecord :=
  { AnnRecord.empty with
    type := some ("tag"),
    tag := some t,
    imageName := some image_name,
    imageHeight := imeta.height,
    imageWidth := imeta.width,
    imageStatus := imeta.status,
    imagePinned := imeta.pinned,
    imageAnnotator := imeta.annotatorEmail,
    imageQA := imeta.qaEmail }

/-- Line 379-381: `None` for a file directly under the root, otherwise the
name of the file's immediate parent directory (`annotation_path.parent.name`). -/
def fileFolderName (f : RootFile) : Option String := f.dirs.getLast?

/-- Python `pattern in name` (substring test). -/
def substrIn (pat s : String) : Bool := (s.splitOn pat).length != 1

def objSuffix : String := "___objects.json"

def pixelSuffix : String := "___pixel.json"

/-- One annotation file (lines 307-452): split the name on the chosen suffix
(a name without exactly one occurrence is skipped), then emit comment, tag and
instance rows. -/
def processFile (colorMap : List (String × JVal))
    (groupMap : List (String × List (String × List String)))
    (typeSuffix : String) (include_comments include_tags : Bool) (f : RootFile) :
    Except AggErr (List AnnRecord) :=
  let parts := f.name.splitOn typeSuffix
  if parts.length ≠ 2 then Except.ok []
  else
    let image_name := parts.headD ("")
    let imeta := f.content.metadata
    let commentRows := if include_comments
      then f.content.comments.map (mkCommentRecord image_name imeta) else []
    let tagRows := if include_tags
      then f.content.tags.map (mkTagRecord image_name imeta) else []
    match processInstances colorMap groupMap image_name imeta (fileFolderName f)
        f.content.instances 0 with
    | Except.error e => Except.error e
    | Except.ok instRows => Except.ok (commentRows ++ tagRows ++ instRows)

def processFiles (colorMap : List (String × JVal))
    (groupMap : List (String × List (String × List String)))
    (typeSuffix : String) (include_comments include_tags : Bool) :
    List RootFile → Except AggErr (List AnnRecord)
  | [] => Except.ok []
  | f :: rest =>
      match processFile colorMap groupMap typeSuffix include_comments include_tags f with
      | Except.error e => Except.error e
      | Except.ok rows =>
          match processFiles colorMap groupMap typeSuffix include_comments include_tags rest with
          | Except.error e => Except.error e
          | Except.ok rest2 => Except.ok (rows ++ rest2)

def pyDistinctStr (l : List String) : List String :=
  l.foldl (fun acc x => if acc.any (fun y => decide (y = x)) then acc else acc ++ [x]) []

def isJsonFile (name : String) : Bool := name.endsWith (".json")

/-- Annotation-file discovery (lines 286-299): top-level `.json` files, then
the files under each top-level directory other than `classes` (recursively);
with explicit `folder_names`, only the files under those subfolders. -/
def discoverPaths (files : List RootFile) (folder_names : Option (List String)) :
    List RootFile :=
  match folder_names with
  | none =>
      let top := files.filter (fun f => decide (f.dirs = []) && isJsonFile f.name)
      let topDirs := pyDistinctStr (files.filterMap (fun f => f.dirs.head?))
      top ++ (topDirs.filter (fun d => decide (¬ d = "classes"))).flatMap
        (fun d => files.filter (fun f => decide (f.dirs.head? = some d) && isJsonFile f.name))
  | some fns =>
      fns.flatMap (fun fn =>
        files.filter (fun f => decide (f.dirs.head? = some fn) && isJsonFile f.name))

/-- The legacy-format check on `json_paths[0]` (lines 172-178). -/
def legacyExport (files : List RootFile) : Bool :=
  match files.filter (fun f => decide (f.dirs = []) && isJsonFile f.name) with
  | [] => false
  | f0 :: _ => !(substrIn pixelSuffix f0.name) && !(substrIn objSuffix f0.name)

/-- The `include_classes_wo_annotations` pass (lines 456-499): one stub row per
class absent from the observed data, resp. per (class, group, attribute)
triple absent from it. -/
def classStubRows (mainRows : List AnnRecord) (classes : List ClassDef) :
    List AnnRecord :=
  classes.flatMap (fun c =>
    if mainRows.any (fun r => decide (r.className = some c.name)) then
      c.attribute_groups.flatMap (fun g =>
        g.attributes.filterMap (fun a =>
          if mainRows.any (fun r => decide (r.className = some c.name) &&
              decide (r.attributeGroupName = some g.name) &&
              decide (r.attributeName = some a.name))
          then none
          else some { AnnRecord.empty with
            className := some c.name,
            classColor := some c.color,
            attributeGroupName := some g.name,
            attributeName := some a.name }))
    else
      [{ AnnRecord.empty with className := some c.name, classColor := some c.color }])

/-- Embedding of `aggregate_image_annotations_as_df` (lines 139-503): legacy
check, classes-file check, class-map construction, file discovery, suffix
selection over the whole root, per-file processing, optional stub rows. -/
def aggregate_image_annotations_as_df (root : ProjectRoot)
    (include_classes_wo_annotations include_comments include_tags : Bool)
    (folder_names : Option (List String)) : Except AggErr (List AnnRecord) :=
  if legacyExport root.files then Except.error AggErr.depricatedDocVideo
  else
    match root.classesJson with
    | none => Except.error AggErr.missingClassesFile
    | some classes =>
        let colorMap := buildColorMap classes
        let groupMap := buildGroupMap classes
        let paths := discoverPaths root.files folder_names
        let typeSuffix := if root.files.any (fun f => f.name.endsWith objSuffix)
          then objSuffix else pixelSuffix
        match processFiles colorMap groupMap typeSuffix include_comments include_tags paths with
        | Except.error e => Except.error e
        | Except.ok mainRows =>
            Except.ok (if include_classes_wo_annotations
              then mainRows ++ classStubRows mainRows classes
              else mainRows)

/-- The one known-class instance of the C4 witness root. -/
def c4carAnn : JsonInstance :=
  { className := some ("car"), type := some ("bbox"), points := some (JVal.blob ("p")) }

/-- An instance referencing class `"pedestrian"`, absent from the classes
file. -/
def c4ann : JsonInstance :=
  { className := some ("pedestrian"), type := some ("bbox"), points := some (JVal.blob ("p")) }

def c4classes : List ClassDef := [⟨"car", JVal.blob ("red"), []⟩]

/-- A root whose single export file holds the unknown-class instance followed
by a known-class instance. -/
def c4root : ProjectRoot :=
  ⟨some c4classes, [⟨[], "img___objects.json", ⟨{}, [c4ann, c4carAnn], [], []⟩⟩]⟩

/-- The single row the C4 witness aggregation produces (the `"pedestrian"`
instance contributes nothing; the `"car"` instance gets id 0). -/
def c4row : AnnRecord :=
  mkInstRecord ("img") {} 0 ("car") none none ("bbox") c4carAnn
    (some (AMeta.points (JVal.blob ("p")))) (JVal.blob ("red")) none
    (getUserMeta none none none none none)

def c5classes : List ClassDef := [⟨"car", JVal.blob ("red"), [⟨"paint", [⟨"red"⟩]⟩]⟩]

/-- A `"car"` bbox with one validating attribute (`paint`/`red`) and one
attribute whose group is unknown. -/
def c5ann : JsonInstance :=
  { className := some ("car"), type := some ("bbox"), points := some (JVal.blob ("p")),
    attributes := some [⟨some ("paint"), some ("red")⟩, ⟨some ("bogus"), some ("x")⟩] }

/-- A `"car"` instance with no `type` field and a `parts` payload. -/
def c10ann : JsonInstance :=
  { className := some ("car"), parts := some (JVal.blob ("m")) }

/-- A root whose single export file sits two levels deep:
`sub/inner/img___objects.json`. -/
def c8root : ProjectRoot :=
  ⟨some c4classes, [⟨["sub", "inner"], "img___objects.json", ⟨{}, [c4carAnn], [], []⟩⟩]⟩

/-- The single row of the `c8root` aggregation. -/
def c8row : AnnRecord :=
  mkInstRecord ("img") {} 0 ("car") none none ("bbox") c4carAnn
    (some (AMeta.points (JVal.blob ("p")))) (JVal.blob ("red")) (some ("inner"))
    (getUserMeta none none none none none)

/-! ### Theorems -/

/-- C9: the pairwise scorer is reflexive at the perfect value.  For any
geometry `A` of shapely type `"Polygon"` whose self-intersection and
self-union both have `A`'s own (nonzero) area — true of every valid
non-degenerate box — `score(A, A) = 1`; and for any geometry `P` of type
`"Point"` whose self-distance is `0` — true of every point —
`score(P, P) = 0`. -/
theorem scorer_reflexive {G : Type} [Shapely G] (A P : G)
    (hA : geomType A = "Polygon")
    (hIA : area (intersection A A) = area A)
    (hUA : area (union A A) = area A)
    (hAnz : area A ≠ 0)
    (hP : geomType P = "Point")
    (hd : distance P P = 0) :
    instance_consensus A A = Except.ok 1 ∧ instance_consensus P P = Except.ok 0 := by
  constructor
  · simp [instance_consensus, hA, hIA, hUA, hAnz, div_self]
  · simp [instance_consensus, hP, hd]

/-- Witness for `scorer_reflexive`: the box `box(0, 0, 2, 2)` and the point
`Point(1, 1)` in the concrete geometry model. -/
theorem scorer_reflexive_witness :
    instance_consensus (BoxGeom.rect 0 0 2 2) (BoxGeom.rect 0 0 2 2) = Except.ok 1 ∧
    instance_consensus (BoxGeom.pt 1 1) (BoxGeom.pt 1 1) = Except.ok 0 :=
  scorer_reflexive (BoxGeom.rect 0 0 2 2) (BoxGeom.pt 1 1)
    (by with_unfolding_all decide) (by with_unfolding_all decide)
    (by with_unfolding_all decide) (by with_unfolding_all decide)
    (by with_unfolding_all decide) (by with_unfolding_all decide)

/-- C3 counterexample: on two degenerate boxes whose union has zero area the
scorer does **not** return `0` — it raises `ZeroDivisionError`
(`intersect.area / union.area` on line 518 has no guard). -/
theorem scorer_zero_union_counterexample :
    instance_consensus (BoxGeom.rect 0 0 0 0) (BoxGeom.rect 0 0 0 0)
        = Except.error ConsErr.zeroDivision ∧
    instance_consensus (BoxGeom.rect 0 0 0 0) (BoxGeom.rect 0 0 0 0)
        ≠ Except.ok 0 := by
  constructor
  · with_unfolding_all rfl
  · with_unfolding_all decide

/-- C3 (amended): for every pair of `"Polygon"` geometries whose union has
zero area, `instance_consensus` raises a division-by-zero error (Python
`ZeroDivisionError`) instead of returning a score; the guard described by the
spec does not exist in the code. -/
theorem scorer_zero_union_raises {G : Type} [Shapely G] (A B : G)
    (hA : geomType A = "Polygon") (hB : geomType B = "Polygon")
    (hU : area (union A B) = 0) :
    instance_consensus A B = Except.error ConsErr.zeroDivision := by
  simp [instance_consensus, hA, hB, hU]

/-- Witness for `scorer_zero_union_raises` at two degenerate boxes. -/
theorem scorer_zero_union_raises_witness :
    instance_consensus (BoxGeom.rect 0 0 0 0) (BoxGeom.rect 1 1 1 1)
        = Except.error ConsErr.zeroDivision :=
  scorer_zero_union_raises (BoxGeom.rect 0 0 0 0) (BoxGeom.rect 1 1 1 1)
    (by with_unfolding_all decide) (by with_unfolding_all decide)
    (by with_unfolding_all decide)

/-- C1 counterexample.  In `c1df` the match group for image `img` holds the
two identical `"car"` boxes of folders `A` and `B`; one other folder (`B`
resp. `A`) is represented in the group and the pairwise score is `1`, so the
claimed score — the mean over the other folders represented in the group of
the clamped pairwise score — is `clampScore 1 = 1`.  The code instead divides
by `len(all_projects) - 1 = 2`, where `all_projects` are the distinct
`folderName`s of the **whole** dataframe (line 550 with line 652), folder `C`
included although it is absent from the group and even from the image: both
emitted rows carry score `1/2`, not `1`. -/
theorem group_score_counterexample :
    image_consensus (G := BoxGeom) c1df ("img") "bbox" = Except.ok
      [⟨some ("annA"), [], 4, "img", 0, some ("car"), some ("A"), 1/2⟩,
       ⟨some ("annB"), [], 4, "img", 0, some ("car"), some ("B"), 1/2⟩] ∧
    ((1 : ℚ)/2) ≠ clampScore 1 := by
  constructor
  · with_unfolding_all decide
  · with_unfolding_all decide

/-- C2 counterexample.  Running the matcher on `c2df` invokes the scorer
exactly once — on the `"car"` box of folder `A` and the `"bus"` box of folder
`B`, two instances of **different** class names: line 619 calls
`instance_consensus` before line 620 tests `other_class == curr_class`.  The
class gate therefore does not precede the scorer invocation. -/
theorem cross_class_scorer_call_counterexample :
    (image_consensus_run (G := BoxGeom) c2df ("img") "bbox").map (fun r => r.calls)
        = Except.ok [ScoreCall.mk (some ("car")) (some ("bus"))] ∧
    (some ("car") : Option String) ≠ some ("bus") := by
  constructor
  · with_unfolding_all decide
  · decide

/-! ### Lemmas about the group-emission code -/
theorem groupConsensus_eq {G : Type} [Shapely G] (m : Option String × InstData G)
    (f : Option String × InstData G → Option String × InstData G → ℚ)
    (l : List (Option String × InstData G))
    (hf : ∀ m' ∈ l, instance_consensus m.2.inst m'.2.inst = Except.ok (f m m')) :
    groupConsensus m l = Except.ok
      ((l.filter (fun m' => decide (¬ m.1 = m'.1))).map
          (fun m' => ScoreCall.mk m.2.className m'.2.className),
       ((l.filter (fun m' => decide (¬ m.1 = m'.1))).map
          (fun m' => clampScore (f m m'))).sum) := by
  induction l with
  | nil => simp [groupConsensus]
  | cons a t ih =>
      have hfa := hf a (by simp)
      have hft : ∀ m' ∈ t, instance_consensus m.2.inst m'.2.inst = Except.ok (f m m') :=
        fun m' hm' => hf m' (List.mem_cons_of_mem a hm')
      by_cases h : m.1 = a.1
      · simp [groupConsensus, h, ih hft, List.filter_cons]
      · simp [groupConsensus, h, hfa, ih hft, List.filter_cons]

theorem emitGroupLoop_eq {G : Type} [Shapely G] (image_name : String) (nProj instId : ℕ)
    (group : List (Option String × InstData G))
    (f : Option String × InstData G → Option String × InstData G → ℚ)
    (hf : ∀ m ∈ group, ∀ m' ∈ group,
      instance_consensus m.2.inst m'.2.inst = Except.ok (f m m'))
    (rem : List (Option String × InstData G)) (hrem : ∀ m ∈ rem, m ∈ group) :
    emitGroupLoop image_name nProj instId group rem = Except.ok
      (rem.flatMap (fun m => (group.filter (fun m' => decide (¬ m.1 = m'.1))).map
          (fun m' => ScoreCall.mk m.2.className m'.2.className)),
       rem.map (fun m => emitRow image_name instId
         ((((group.filter (fun m' => decide (¬ m.1 = m'.1))).map
              (fun m' => clampScore (f m m'))).sum) / ((nProj : ℚ) - 1)) m)) := by
  induction rem with
  | nil => simp [emitGroupLoop]
  | cons a t ih =>
      have ha := hrem a (by simp)
      have hgc := groupConsensus_eq a f group (fun m' hm' => hf a ha m' hm')
      have ht : ∀ m ∈ t, m ∈ group := fun m hm => hrem m (List.mem_cons_of_mem a hm)
      simp [emitGroupLoop, hgc, ih ht]

/-! ### Invariants of the matching loops -/
/-- Every best candidate produced by the inner search is drawn from the
searched bucket and — because line 620 only updates the best candidate when
`other_class == curr_class` — carries the current instance's class name. -/
theorem bestMatch_best_spec {G : Type} [Shapely G] (curr_inst : G) (cc : Option String)
    (full : List (InstData G)) :
    ∀ (others : List (InstData G)) (vis : List Bool) (idx : ℕ) (acc : BestAcc G)
      (calls : List ScoreCall) (accF : BestAcc G),
      (∀ d ∈ others, d ∈ full) →
      (∀ d i, acc.best = some (d, i) → d ∈ full ∧ d.className = cc) →
      bestMatch curr_inst cc others vis idx acc = Except.ok (calls, accF) →
      ∀ d i, accF.best = some (d, i) → d ∈ full ∧ d.className = cc := by
  intro others
  induction others with
  | nil =>
      intro vis idx acc calls accF _ hacc h
      simp only [bestMatch, Except.ok.injEq, Prod.mk.injEq] at h
      rw [← h.2]
      exact hacc
  | cons a t ih =>
      intro vis idx acc calls accF hsub hacc h
      have hat : a ∈ full := hsub a (by simp)
      have htsub : ∀ d ∈ t, d ∈ full := fun d hd => hsub d (List.mem_cons_of_mem a hd)
      by_cases hv : vis.headD false
      · rw [bestMatch, if_pos hv] at h
        exact ih vis.tail (idx + 1) acc calls accF htsub hacc h
      · rw [bestMatch, if_neg hv] at h
        cases hic : instance_consensus curr_inst a.inst with
        | error e => rw [hic] at h; simp at h
        | ok s =>
            rw [hic] at h
            dsimp only at h
            cases hrec : bestMatch curr_inst cc t vis.tail (idx + 1)
                (if scoreBeats s acc.maxScore && decide (a.className = cc) then
                  BestAcc.mk (some s) (some (a, idx)) else acc) with
            | error e => rw [hrec] at h; simp at h
            | ok p =>
                rw [hrec] at h
                dsimp only at h
                obtain ⟨p1, p2⟩ := p
                simp only [Except.ok.injEq, Prod.mk.injEq] at h
                obtain ⟨-, h2⟩ := h
                subst h2
                refine ih vis.tail (idx + 1) _ p1 p2 htsub ?_ hrec
                by_cases hcond : scoreBeats s acc.maxScore && decide (a.className = cc)
                · intro d i hbest
                  rw [if_pos hcond] at hbest
                  simp only [Option.some.injEq, Prod.mk.injEq] at hbest
                  obtain ⟨h1, -⟩ := hbest
                  subst h1
                  have hcls : a.className = cc := by
                    have hcc := (Bool.and_eq_true _ _).mp hcond
                    exact of_decide_eq_true hcc.2
                  exact ⟨hat, hcls⟩
                · intro d i hbest
                  rw [if_neg hcond] at hbest
                  exact hacc d i hbest

/-- Every member of a completed `max_instances` group is an actual instance of
one of the image's folder buckets, and carries the current instance's class
name (the self entry trivially, a selected entry by the line-620 gate). -/
theorem matchOthers_spec {G : Type} [Shapely G] (annot_type : String)
    (projObjs : List (Option String × List (InstData G)))
    (curr_proj : Option String) (curr : InstData G) (j : ℕ)
    (hcurr : ∃ l, (curr_proj, l) ∈ projObjs ∧ curr ∈ l) :
    ∀ (tl : List (Option String × List (InstData G))) (k : ℕ) (vis : List (List Bool))
      (acc : List (Option String × InstData G)) (calls0 calls : List ScoreCall)
      (maxInst : List (Option String × InstData G)) (vis' : List (List Bool)),
      (∀ e ∈ tl, e ∈ projObjs) →
      (∀ m ∈ acc, (∃ l, (m.1, l) ∈ projObjs ∧ m.2 ∈ l) ∧ m.2.className = curr.className) →
      matchOthers annot_type curr_proj curr j tl k vis acc calls0
        = Except.ok (calls, maxInst, vis') →
      ∀ m ∈ maxInst, (∃ l, (m.1, l) ∈ projObjs ∧ m.2 ∈ l) ∧ m.2.className = curr.className := by
  intro tl
  induction tl with
  | nil =>
      intro k vis acc calls0 calls maxInst vis' _ hacc h
      simp only [matchOthers, Except.ok.injEq, Prod.mk.injEq] at h
      obtain ⟨-, h2, -⟩ := h
      rw [← h2]
      exact hacc
  | cons e rest ih =>
      obtain ⟨key, insts⟩ := e
      intro k vis acc calls0 calls maxInst vis' hsub hacc h
      have hmem : (key, insts) ∈ projObjs := hsub _ (by simp)
      have hrsub : ∀ x ∈ rest, x ∈ projObjs := fun x hx => hsub x (List.mem_cons_of_mem _ hx)
      by_cases hk : key = curr_proj
      · rw [matchOthers, if_pos hk] at h
        refine ih (k + 1) _ _ calls0 calls maxInst vis' hrsub ?_ h
        intro m hm
        rcases List.mem_append.mp hm with hm1 | hm2
        · exact hacc m hm1
        · simp only [List.mem_singleton] at hm2
          subst hm2
          exact ⟨hcurr, rfl⟩
      · rw [matchOthers, if_neg hk] at h
        dsimp only at h
        cases hbm : bestMatch curr.inst curr.className insts (vis.getD k []) 0
            ⟨if annot_type = "polygon" ∨ annot_type = "bbox" then some 0 else none, none⟩ with
        | error er => rw [hbm] at h; simp at h
        | ok pr =>
            obtain ⟨calls1, accF⟩ := pr
            rw [hbm] at h
            dsimp only at h
            have hbest := bestMatch_best_spec curr.inst curr.className insts insts
              (vis.getD k []) 0 _ calls1 accF (fun d hd => hd)
              (by intro d i hc; simp at hc) hbm
            cases hbf : accF.best with
            | some di =>
                obtain ⟨d, idx⟩ := di
                rw [hbf] at h
                dsimp only at h
                refine ih (k + 1) _ _ _ calls maxInst vis' hrsub ?_ h
                intro m hm
                rcases List.mem_append.mp hm with hm1 | hm2
                · exact hacc m hm1
                · simp only [List.mem_singleton] at hm2
                  subst hm2
                  obtain ⟨hdmem, hdcls⟩ := hbest d idx hbf
                  exact ⟨⟨insts, hmem, hdmem⟩, hdcls⟩
            | none =>
                rw [hbf] at h
                dsimp only at h
                exact ih (k + 1) _ _ _ calls maxInst vis' hrsub hacc h

theorem matchProjInsts_spec {G : Type} [Shapely G] (annot_type image_name : String)
    (nProj : ℕ) (projObjs : List (Option String × List (InstData G))) (i : ℕ)
    (key : Option String) :
    ∀ (insts : List (InstData G)) (j : ℕ) (vis : List (List Bool)) (instId : ℕ)
      (out : List (GroupOut G)) (calls : List ScoreCall)
      (vis' : List (List Bool)) (instId' : ℕ) (out' : List (GroupOut G))
      (calls' : List ScoreCall),
      (∀ d ∈ insts, ∃ l, (key, l) ∈ projObjs ∧ d ∈ l) →
      (∀ g ∈ out, GoodGroup image_name nProj projObjs g) →
      matchProjInsts annot_type image_name nProj projObjs i key insts j vis instId out calls
        = Except.ok (vis', instId', out', calls') →
      ∀ g ∈ out', GoodGroup image_name nProj projObjs g := by
  intro insts
  induction insts with
  | nil =>
      intro j vis instId out calls vis' instId' out' calls' _ hout h
      simp only [matchProjInsts, Except.ok.injEq, Prod.mk.injEq] at h
      obtain ⟨-, -, h3, -⟩ := h
      rw [← h3]
      exact hout
  | cons d rest ih =>
      intro j vis instId out calls vis' instId' out' calls' hsub hout h
      have hd : ∃ l, (key, l) ∈ projObjs ∧ d ∈ l := hsub d (by simp)
      have hrest : ∀ x ∈ rest, ∃ l, (key, l) ∈ projObjs ∧ x ∈ l :=
        fun x hx => hsub x (List.mem_cons_of_mem _ hx)
      by_cases hv : (vis.getD i []).getD j false
      · rw [matchProjInsts, if_pos hv] at h
        exact ih (j + 1) vis instId out calls vis' instId' out' calls' hrest hout h
      · rw [matchProjInsts, if_neg hv] at h
        cases hmo : matchOthers annot_type key d j projObjs 0 vis [] [] with
        | error e => rw [hmo] at h; simp at h
        | ok tr =>
            obtain ⟨calls1, g, vis1⟩ := tr
            rw [hmo] at h
            dsimp only at h
            cases hem : emitGroupRows image_name nProj instId g with
            | error e => rw [hem] at h; simp at h
            | ok pr =>
                obtain ⟨calls2, rows⟩ := pr
                rw [hem] at h
                dsimp only at h
                refine ih (j + 1) vis1 (instId + 1) _ _ vis' instId' out' calls' hrest
                  ?_ h
                intro g0 hg0
                rcases List.mem_append.mp hg0 with hg1 | hg2
                · exact hout g0 hg1
                · simp only [List.mem_singleton] at hg2
                  subst hg2
                  have hms := matchOthers_spec annot_type projObjs key d j hd projObjs
                    0 vis [] [] calls1 g vis1 (fun e he => he) (by simp) hmo
                  refine ⟨⟨calls2, hem⟩, ?_⟩
                  intro m hm
                  refine ⟨(hms m hm).1, ?_⟩
                  intro m' hm'
                  rw [(hms m hm).2, (hms m' hm').2]

theorem matchProjs_spec {G : Type} [Shapely G] (annot_type image_name : String)
    (nProj : ℕ) (projObjs : List (Option String × List (InstData G))) :
    ∀ (entries : List (Option String × List (InstData G))) (i : ℕ)
      (vis : List (List Bool)) (instId : ℕ) (out : List (GroupOut G))
      (calls : List ScoreCall) (out' : List (GroupOut G)) (calls' : List ScoreCall),
      (∀ e ∈ entries, e ∈ projObjs) →
      (∀ g ∈ out, GoodGroup image_name nProj projObjs g) →
      matchProjs annot_type image_name nProj projObjs entries i vis instId out calls
        = Except.ok (out', calls') →
      ∀ g ∈ out', GoodGroup image_name nProj projObjs g := by
  intro entries
  induction entries with
  | nil =>
      intro i vis instId out calls out' calls' _ hout h
      simp only [matchProjs, Except.ok.injEq, Prod.mk.injEq] at h
      obtain ⟨h1, -⟩ := h
      rw [← h1]
      exact hout
  | cons e rest ih =>
      obtain ⟨key, insts⟩ := e
      intro i vis instId out calls out' calls' hsub hout h
      have hke : (key, insts) ∈ projObjs := hsub _ (by simp)
      rw [matchProjs] at h
      cases hpi : matchProjInsts annot_type image_name nProj projObjs i key insts 0 vis
          instId out calls with
      | error e2 => rw [hpi] at h; simp at h
      | ok q =>
          obtain ⟨vis1, instId1, out1, calls1⟩ := q
          rw [hpi] at h
          dsimp only at h
          have hout1 := matchProjInsts_spec annot_type image_name nProj projObjs i key
            insts 0 vis instId out calls vis1 instId1 out1 calls1
            (fun x hx => ⟨insts, hke, hx⟩) hout hpi
          exact ih (i + 1) vis1 instId1 out1 calls1 out' calls'
            (fun x hx => hsub x (List.mem_cons_of_mem _ hx)) hout1 h

/-- An ok run determines an ok bucket construction. -/
theorem run_ok_objs {G : Type} [Shapely G] (df : List CRow)
    (image_name annot_type : String) (res : MatchResult G)
    (h : image_consensus_run (G := G) df image_name annot_type = Except.ok res) :
    ∃ projObjs, buildProjObjs (G := G) annot_type []
      (df.filter (fun r => decide (r.imageName = image_name))) = Except.ok projObjs := by
  unfold image_consensus_run at h
  dsimp only at h
  cases hobjs : buildProjObjs (G := G) annot_type []
      (df.filter (fun r => decide (r.imageName = image_name))) with
  | error e => rw [hobjs] at h; simp at h
  | ok p => exact ⟨p, rfl⟩

/-- Master lemma: every group of an ok run satisfies `GoodGroup`, with
`nProj = len(all_projects)` taken from the whole dataframe. -/
theorem run_groups_spec {G : Type} [Shapely G] (df : List CRow)
    (image_name annot_type : String) (res : MatchResult G)
    (projObjs : List (Option String × List (InstData G)))
    (hobjs : buildProjObjs (G := G) annot_type []
        (df.filter (fun r => decide (r.imageName = image_name))) = Except.ok projObjs)
    (h : image_consensus_run (G := G) df image_name annot_type = Except.ok res) :
    ∀ g ∈ res.groups,
      GoodGroup image_name (pyDistinct (df.map (fun r => r.folderName))).length projObjs g := by
  unfold image_consensus_run at h
  dsimp only at h
  rw [hobjs] at h
  dsimp only at h
  cases hmp : matchProjs annot_type image_name
      (pyDistinct (df.map (fun r => r.folderName))).length projObjs projObjs 0
      (projObjs.map (fun p => List.replicate p.2.length false)) 0 [] [] with
  | error e => rw [hmp] at h; simp at h
  | ok q =>
      obtain ⟨out, calls⟩ := q
      rw [hmp] at h
      dsimp only at h
      simp only [Except.ok.injEq] at h
      have hres : res.groups = out := by rw [← h]
      rw [hres]
      exact matchProjs_spec annot_type image_name _ projObjs projObjs 0 _ 0 [] [] out calls
        (fun e he => he) (by simp) hmp

theorem emitGroupLoop_rows_mem {G : Type} [Shapely G] (image_name : String)
    (nProj instId : ℕ) (group : List (Option String × InstData G)) :
    ∀ (rem : List (Option String × InstData G)) (cs : List ScoreCall)
      (rows : List ConsensusRow),
      emitGroupLoop image_name nProj instId group rem = Except.ok (cs, rows) →
      ∀ row ∈ rows, ∃ m ∈ rem, ∃ s, row = emitRow image_name instId s m := by
  intro rem
  induction rem with
  | nil =>
      intro cs rows h
      simp only [emitGroupLoop, Except.ok.injEq, Prod.mk.injEq] at h
      rw [← h.2]
      simp
  | cons a t ih =>
      intro cs rows h
      rw [emitGroupLoop] at h
      cases hgc : groupConsensus a group with
      | error e => rw [hgc] at h; simp at h
      | ok p1 =>
          obtain ⟨calls1, pc⟩ := p1
          rw [hgc] at h
          dsimp only at h
          cases hl : emitGroupLoop image_name nProj instId group t with
          | error e => rw [hl] at h; simp at h
          | ok p2 =>
              obtain ⟨calls2, rows2⟩ := p2
              rw [hl] at h
              dsimp only at h
              simp only [Except.ok.injEq, Prod.mk.injEq] at h
              obtain ⟨-, h2⟩ := h
              subst h2
              intro row hrow
              rcases List.mem_cons.mp hrow with h1 | h2
              · exact ⟨a, by simp, _, h1⟩
              · obtain ⟨m, hm, s, hs⟩ := ih calls2 rows2 hl row h2
                exact ⟨m, List.mem_cons_of_mem _ hm, s, hs⟩

theorem emitGroupRows_rows_mem {G : Type} [Shapely G] (image_name : String)
    (nProj instId : ℕ) (group : List (Option String × InstData G))
    (cs : List ScoreCall) (rows : List ConsensusRow)
    (h : emitGroupRows image_name nProj instId group = Except.ok (cs, rows)) :
    ∀ row ∈ rows, ∃ m ∈ group, ∃ s, row = emitRow image_name instId s m := by
  cases group with
  | nil =>
      simp only [emitGroupRows] at h
      exact emitGroupLoop_rows_mem image_name nProj instId [] [] cs rows h
  | cons a t =>
      cases t with
      | nil =>
          simp only [emitGroupRows, Except.ok.injEq, Prod.mk.injEq] at h
          rw [← h.2]
          intro row hrow
          simp only [List.mem_singleton] at hrow
          exact ⟨a, by simp, 0, hrow⟩
      | cons b t2 =>
          simp only [emitGroupRows] at h
          exact emitGroupLoop_rows_mem image_name nProj instId (a :: b :: t2) (a :: b :: t2)
            cs rows h

/-- C1 (amended): for every match group with at least two members produced by
a completed run of the matcher, each member's emitted score is the **sum** of
its clamped pairwise scores against the group members from other folders
(`≤ 0` replaced by `1`) divided by `len(all_projects) - 1`, where
`all_projects` are the distinct `folderName` values of the **entire** input
dataframe (line 550) — not the mean over the folders represented in the
group.  The two quantities coincide only when the group spans all folders of
the dataframe. -/
theorem group_score_denominator {G : Type} [Shapely G]
    (df : List CRow) (image_name annot_type : String) (res : MatchResult G)
    (h : image_consensus_run (G := G) df image_name annot_type = Except.ok res)
    (g : GroupOut G) (hg : g ∈ res.groups) (h2 : 2 ≤ g.group.length)
    (f : Option String × InstData G → Option String × InstData G → ℚ)
    (hf : ∀ m ∈ g.group, ∀ m' ∈ g.group,
      instance_consensus m.2.inst m'.2.inst = Except.ok (f m m')) :
    g.rows = g.group.map (fun m => emitRow image_name g.instId
      ((((g.group.filter (fun m' => decide (¬ m.1 = m'.1))).map
          (fun m' => clampScore (f m m'))).sum)
        / (((pyDistinct (df.map (fun r => r.folderName))).length : ℚ) - 1)) m) := by
  obtain ⟨projObjs, hobjs⟩ := run_ok_objs df image_name annot_type res h
  obtain ⟨⟨cs, hemit⟩, -⟩ :=
    run_groups_spec df image_name annot_type res projObjs hobjs h g hg
  have hloop := emitGroupLoop_eq image_name
    (pyDistinct (df.map (fun r => r.folderName))).length g.instId g.group f hf
    g.group (fun m hm => hm)
  cases hgrp : g.group with
  | nil => rw [hgrp] at h2; simp at h2
  | cons a t =>
      cases t with
      | nil => rw [hgrp] at h2; simp at h2
      | cons b t2 =>
          rw [hgrp] at hemit hloop
          simp only [emitGroupRows] at hemit
          rw [hloop] at hemit
          simp only [Except.ok.injEq, Prod.mk.injEq] at hemit
          exact hemit.2.symm

/-- Witness for `group_score_denominator` on the `c1df` run (every pairwise
score in the group is `1`). -/
theorem group_score_denominator_witness :
    c1grp.rows = c1grp.group.map (fun m => emitRow ("img") c1grp.instId
      ((((c1grp.group.filter (fun m' => decide (¬ m.1 = m'.1))).map
          (fun m' => clampScore ((fun _ _ => (1 : ℚ)) m m'))).sum)
        / (((pyDistinct (c1df.map (fun r => r.folderName))).length : ℚ) - 1)) m) :=
  group_score_denominator c1df ("img") "bbox" c1res (by with_unfolding_all decide)
    c1grp (by with_unfolding_all decide) (by decide) (fun _ _ => (1 : ℚ))
    (by with_unfolding_all decide)

/-- C2 (amended): the `className` gate is applied only when **selecting** the
best match (line 620), after the scorer has already been invoked on the pair
(line 619).  Cross-class scorer invocations therefore occur (see the
counterexample), but a cross-class pair is never selected: every completed
match group is class-homogeneous. -/
theorem class_gate_on_selection {G : Type} [Shapely G]
    (df : List CRow) (image_name annot_type : String) (res : MatchResult G)
    (h : image_consensus_run (G := G) df image_name annot_type = Except.ok res) :
    ∀ g ∈ res.groups, ∀ m ∈ g.group, ∀ m' ∈ g.group,
      m.2.className = m'.2.className := by
  obtain ⟨projObjs, hobjs⟩ := run_ok_objs df image_name annot_type res h
  intro g hg m hm m' hm'
  exact ((run_groups_spec df image_name annot_type res projObjs hobjs h g hg).2 m hm).2
    m' hm'

/-- Witness for `class_gate_on_selection`: in the `c1df` run the two members
of the completed match group carry the same class name. -/
theorem class_gate_on_selection_witness :
    ((some ("A"), ⟨BoxGeom.rect 0 0 2 2, some ("car"), some ("annA"), []⟩) :
        Option String × InstData BoxGeom).2.className
      = ((some ("B"), ⟨BoxGeom.rect 0 0 2 2, some ("car"), some ("annB"), []⟩) :
        Option String × InstData BoxGeom).2.className :=
  class_gate_on_selection c1df ("img") ("bbox") c1res (by with_unfolding_all decide)
    c1grp (by with_unfolding_all decide)
    (some ("A"), ⟨BoxGeom.rect 0 0 2 2, some ("car"), some ("annA"), []⟩)
    (by with_unfolding_all decide)
    (some ("B"), ⟨BoxGeom.rect 0 0 2 2, some ("car"), some ("annB"), []⟩)
    (by with_unfolding_all decide)

/-- C6: in every completed run, a match group with exactly one member (no
cross-folder counterpart found) contributes exactly one row with score `0`;
and every emitted row corresponds to a member of its group, which is itself an
actual instance of one of the image's folder buckets — no row is synthesized
for a folder with no matching instance. -/
theorem singleton_score_zero_no_synthesis {G : Type} [Shapely G]
    (df : List CRow) (image_name annot_type : String)
    (res : MatchResult G) (projObjs : List (Option String × List (InstData G)))
    (hobjs : buildProjObjs (G := G) annot_type []
        (df.filter (fun r => decide (r.imageName = image_name))) = Except.ok projObjs)
    (h : image_consensus_run (G := G) df image_name annot_type = Except.ok res) :
    ∀ g ∈ res.groups,
      (∀ m, g.group = [m] → g.rows = [emitRow image_name g.instId 0 m]) ∧
      (∀ row ∈ g.rows, ∃ m ∈ g.group, row.folderName = m.1 ∧
        row.className = m.2.className ∧ ∃ l, (m.1, l) ∈ projObjs ∧ m.2 ∈ l) := by
  intro g hg
  obtain ⟨⟨cs, hemit⟩, hmem⟩ :=
    run_groups_spec df image_name annot_type res projObjs hobjs h g hg
  constructor
  · intro m hgm
    rw [hgm] at hemit
    simp only [emitGroupRows, Except.ok.injEq, Prod.mk.injEq] at hemit
    exact hemit.2.symm
  · intro row hrow
    obtain ⟨m, hm, s, hs⟩ := emitGroupRows_rows_mem image_name _ g.instId g.group cs
      g.rows hemit row hrow
    exact ⟨m, hm, by rw [hs]; rfl, by rw [hs]; rfl, (hmem m hm).1⟩

/-- Witness for `singleton_score_zero_no_synthesis`: in the `c6df` run the
singleton group's row list is exactly the score-`0` row of its lone member,
and that row traces back to an actual bucket instance. -/
theorem singleton_score_zero_no_synthesis_witness :
    c6grp.rows = [emitRow ("img") c6grp.instId 0 c6mem] ∧
    ∃ m ∈ c6grp.group, c6row.folderName = m.1 ∧ c6row.className = m.2.className ∧
      ∃ l, (m.1, l) ∈ c6objs ∧ m.2 ∈ l :=
  ⟨(singleton_score_zero_no_synthesis c6df ("img") ("bbox") c6res c6objs
      (by with_unfolding_all decide) (by with_unfolding_all decide) c6grp
      (by with_unfolding_all decide)).1 c6mem rfl,
   (singleton_score_zero_no_synthesis c6df ("img") ("bbox") c6res c6objs
      (by with_unfolding_all decide) (by with_unfolding_all decide) c6grp
      (by with_unfolding_all decide)).2 c6row (by with_unfolding_all decide)⟩

/-! ### Lemmas about the aggregation -/
theorem dictLookup_some_key {β : Type} :
    ∀ (l : List (String × β)) (k : String) (v : β),
      dictLookup l k = some v → k ∈ l.map (fun p => p.1) := by
  intro l
  induction l with
  | nil => intro k v h; simp [dictLookup] at h
  | cons p rest ih =>
      obtain ⟨k0, v0⟩ := p
      intro k v h
      rw [dictLookup] at h
      by_cases h0 : k0 = k
      · subst h0; simp
      · rw [if_neg h0] at h
        simpa using Or.inr (ih k v h)

theorem dictInsert_key_mem {β : Type} :
    ∀ (l : List (String × β)) (k : String) (v : β) (k' : String),
      k' ∈ (dictInsert l k v).map (fun p => p.1) →
      k' = k ∨ k' ∈ l.map (fun p => p.1) := by
  intro l
  induction l with
  | nil => intro k v k' h; simp [dictInsert] at h; exact Or.inl h
  | cons p rest ih =>
      obtain ⟨k0, v0⟩ := p
      intro k v k' h
      rw [dictInsert] at h
      by_cases h0 : k0 = k
      · rw [if_pos h0] at h
        simp only [List.map_cons, List.mem_cons] at h
        rcases h with h | h
        · exact Or.inr (by simp [h])
        · exact Or.inr (by simp [h])
      · rw [if_neg h0] at h
        simp only [List.map_cons, List.mem_cons] at h
        rcases h with h | h
        · exact Or.inr (by simp [h])
        · rcases ih k v k' h with h1 | h1
          · exact Or.inl h1
          · exact Or.inr (by simp [h1])

theorem buildColorMap_key_mem (classes : List ClassDef) (c : String) (v : JVal)
    (h : dictLookup (buildColorMap classes) c = some v) :
    ∃ cd ∈ classes, cd.name = c := by
  have key := dictLookup_some_key (buildColorMap classes) c v h
  unfold buildColorMap at key
  suffices haux : ∀ (cs : List ClassDef) (acc : List (String × JVal)) (k : String),
      k ∈ (cs.foldl (fun m cd => dictInsert m cd.name cd.color) acc).map (fun p => p.1) →
      k ∈ acc.map (fun p => p.1) ∨ ∃ cd ∈ cs, cd.name = k by
    rcases haux classes [] c key with h1 | h1
    · simp at h1
    · exact h1
  intro cs
  induction cs with
  | nil => intro acc k h1; exact Or.inl h1
  | cons cd rest ih =>
      intro acc k h1
      rw [List.foldl_cons] at h1
      rcases ih (dictInsert acc cd.name cd.color) k h1 with h2 | h2
      · rcases dictInsert_key_mem acc cd.name cd.color k h2 with h3 | h3
        · exact Or.inr ⟨cd, by simp, h3.symm⟩
        · exact Or.inl h3
      · obtain ⟨cd2, hcd2, hn⟩ := h2
        exact Or.inr ⟨cd2, List.mem_cons_of_mem _ hcd2, hn⟩

theorem attrRecord_some (gvals : List (String × List String))
    (mk : Option String → Option String → AnnRecord) (a : JsonAttribute)
    (row : AnnRecord) (h : attrRecord gvals mk a = some row) :
    ∃ gr nm, row = mk gr nm := by
  unfold attrRecord at h
  cases hg : a.groupName with
  | none => rw [hg] at h; simp at h
  | some gname =>
      rw [hg] at h
      dsimp only at h
      cases hl : dictLookup gvals gname with
      | none => rw [hl] at h; simp at h
      | some names =>
          rw [hl] at h
          dsimp only at h
          cases hn : a.name with
          | none => rw [hn] at h; simp at h
          | some nm =>
              rw [hn] at h
              dsimp only at h
              by_cases hmem : nm ∈ names
              · rw [if_pos hmem] at h
                simp only [Option.some.injEq] at h
                exact ⟨some gname, some nm, h.symm⟩
              · rw [if_neg hmem] at h; simp at h

/-- Every record an instance contributes is `mkInstRecord` at the instance's
known class and extracted payload. -/
theorem processInstance_rows_shape (colorMap : List (String × JVal))
    (groupMap : List (String × List (String × List String)))
    (image_name : String) (imeta : MetaBlock) (folderName : Option String)
    (instId : ℕ) (ann : JsonInstance) (rows : List AnnRecord)
    (h : processInstance colorMap groupMap image_name imeta folderName instId ann
      = Except.ok rows) :
    ∀ row ∈ rows, ∃ cname color meta agroup aname,
      ann.className = some cname ∧
      dictLookup colorMap cname = some color ∧
      extractMeta (ann.type.getD ("mask")) ann = Except.ok meta ∧
      row = mkInstRecord image_name imeta instId cname agroup aname
        (ann.type.getD ("mask")) ann meta color folderName
        (getUserMeta ann.createdAt ann.updatedAt ann.creationType
          ann.createdBy ann.updatedBy) := by
  unfold processInstance at h
  cases hcn : ann.className with
  | none =>
      rw [hcn] at h
      simp only [Except.ok.injEq] at h
      rw [← h]
      simp
  | some cname =>
      rw [hcn] at h
      dsimp only at h
      cases hcol : dictLookup colorMap cname with
      | none =>
          rw [hcol] at h
          simp only [Except.ok.injEq] at h
          rw [← h]
          simp
      | some color =>
          rw [hcol] at h
          dsimp only at h
          cases hem : extractMeta (ann.type.getD ("mask")) ann with
          | error e => rw [hem] at h; simp at h
          | ok meta =>
              rw [hem] at h
              dsimp only at h
              cases hattrs : ann.attributes with
              | none =>
                  rw [hattrs] at h
                  simp only [Except.ok.injEq] at h
                  rw [← h]
                  intro row hrow
                  simp only [List.mem_singleton] at hrow
                  exact ⟨cname, color, meta, none, none, rfl, hcol, rfl, hrow⟩
              | some attrs =>
                  cases attrs with
                  | nil =>
                      rw [hattrs] at h
                      simp only [Except.ok.injEq] at h
                      rw [← h]
                      intro row hrow
                      simp only [List.mem_singleton] at hrow
                      exact ⟨cname, color, meta, none, none, rfl, hcol, rfl, hrow⟩
                  | cons a t =>
                      rw [hattrs] at h
                      simp only [Except.ok.injEq] at h
                      rw [← h]
                      intro row hrow
                      obtain ⟨x, -, hx⟩ := List.mem_filterMap.mp hrow
                      obtain ⟨gr, nm, hrw⟩ := attrRecord_some _ _ x row hx
                      exact ⟨cname, color, meta, gr, nm, rfl, hcol, rfl, hrw⟩

theorem processInstances_rows_mem (colorMap : List (String × JVal))
    (groupMap : List (String × List (String × List String)))
    (image_name : String) (imeta : MetaBlock) (folderName : Option String) :
    ∀ (anns : List JsonInstance) (instId : ℕ) (rows : List AnnRecord),
      processInstances colorMap groupMap image_name imeta folderName anns instId
        = Except.ok rows →
      ∀ row ∈ rows, ∃ ann ∈ anns, ∃ i irows,
        processInstance colorMap groupMap image_name imeta folderName i ann
          = Except.ok irows ∧ row ∈ irows := by
  intro anns
  induction anns with
  | nil =>
      intro instId rows h
      simp only [processInstances, Except.ok.injEq] at h
      rw [← h]
      simp
  | cons ann rest ih =>
      intro instId rows h
      rw [processInstances] at h
      cases hpi : processInstance colorMap groupMap image_name imeta folderName instId ann with
      | error e => rw [hpi] at h; simp at h
      | ok irows =>
          rw [hpi] at h
          dsimp only at h
          cases hrest : processInstances colorMap groupMap image_name imeta folderName rest
              (if irows.length > 0 then instId + 1 else instId) with
          | error e => rw [hrest] at h; simp at h
          | ok rest2 =>
              rw [hrest] at h
              simp only [Except.ok.injEq] at h
              rw [← h]
              intro row hrow
              rcases List.mem_append.mp hrow with h1 | h1
              · exact ⟨ann, by simp, instId, irows, hpi, h1⟩
              · obtain ⟨ann2, hann2, i2, irows2, hpi2, hr2⟩ := ih _ rest2 hrest row h1
                exact ⟨ann2, List.mem_cons_of_mem _ hann2, i2, irows2, hpi2, hr2⟩

theorem processFiles_rows_mem (colorMap : List (String × JVal))
    (groupMap : List (String × List (String × List String)))
    (typeSuffix : String) (ic it : Bool) :
    ∀ (fs : List RootFile) (rows : List AnnRecord),
      processFiles colorMap groupMap typeSuffix ic it fs = Except.ok rows →
      ∀ row ∈ rows, ∃ f ∈ fs, ∃ frows,
        processFile colorMap groupMap typeSuffix ic it f = Except.ok frows ∧ row ∈ frows := by
  intro fs
  induction fs with
  | nil =>
      intro rows h
      simp only [processFiles, Except.ok.injEq] at h
      rw [← h]
      simp
  | cons f rest ih =>
      intro rows h
      rw [processFiles] at h
      cases hpf : processFile colorMap groupMap typeSuffix ic it f with
      | error e => rw [hpf] at h; simp at h
      | ok frows =>
          rw [hpf] at h
          dsimp only at h
          cases hrest : processFiles colorMap groupMap typeSuffix ic it rest with
          | error e => rw [hrest] at h; simp at h
          | ok rest2 =>
              rw [hrest] at h
              simp only [Except.ok.injEq] at h
              rw [← h]
              intro row hrow
              rcases List.mem_append.mp hrow with h1 | h1
              · exact ⟨f, by simp, frows, hpf, h1⟩
              · obtain ⟨f2, hf2, frows2, hpf2, hr2⟩ := ih rest2 hrest row h1
                exact ⟨f2, List.mem_cons_of_mem _ hf2, frows2, hpf2, hr2⟩

/-- Every row a file contributes is a comment row, a tag row (both without a
class name) or an instance row whose class name is a key of the color map. -/
theorem processFile_row_class (colorMap : List (String × JVal))
    (groupMap : List (String × List (String × List String)))
    (tS : String) (ic it : Bool) (f : RootFile) (rows : List AnnRecord)
    (h : processFile colorMap groupMap tS ic it f = Except.ok rows) :
    ∀ row ∈ rows, row.className = none ∨
      ∃ c v, row.className = some c ∧ dictLookup colorMap c = some v := by
  unfold processFile at h
  by_cases hp : (f.name.splitOn tS).length ≠ 2
  · rw [if_pos hp] at h
    simp only [Except.ok.injEq] at h
    rw [← h]; simp
  · rw [if_neg hp] at h
    dsimp only at h
    cases hpi : processInstances colorMap groupMap ((f.name.splitOn tS).headD (""))
        f.content.metadata (fileFolderName f) f.content.instances 0 with
    | error e => rw [hpi] at h; simp at h
    | ok instRows =>
        rw [hpi] at h
        dsimp only at h
        simp only [Except.ok.injEq] at h
        rw [← h]
        intro row hrow
        rcases List.mem_append.mp hrow with h1 | h1
        · rcases List.mem_append.mp h1 with h2 | h2
          · rcases Bool.eq_false_or_eq_true ic with hic | hic
            · rw [hic] at h2
              simp at h2
              obtain ⟨c, -, hc⟩ := h2
              left; rw [← hc]; rfl
            · rw [hic] at h2; simp at h2
          · rcases Bool.eq_false_or_eq_true it with hit | hit
            · rw [hit] at h2
              simp at h2
              obtain ⟨c, -, hc⟩ := h2
              left; rw [← hc]; rfl
            · rw [hit] at h2; simp at h2
        · obtain ⟨ann, -, i, irows, hpi2, hr2⟩ :=
            processInstances_rows_mem colorMap groupMap _ _ _ _ _ instRows hpi row h1
          obtain ⟨cname, color, meta, agroup, aname, -, hcol, -, hrw⟩ :=
            processInstance_rows_shape colorMap groupMap _ _ _ _ _ irows hpi2 row hr2
          right
          exact ⟨cname, color, by rw [hrw]; rfl, hcol⟩

/-- With comment and tag rows disabled, every row a file contributes carries
the file's immediate parent directory as its folder name. -/
theorem processFile_row_folder (colorMap : List (String × JVal))
    (groupMap : List (String × List (String × List String)))
    (tS : String) (f : RootFile) (rows : List AnnRecord)
    (h : processFile colorMap groupMap tS false false f = Except.ok rows) :
    ∀ row ∈ rows, row.folderName = fileFolderName f := by
  unfold processFile at h
  by_cases hp : (f.name.splitOn tS).length ≠ 2
  · rw [if_pos hp] at h
    simp only [Except.ok.injEq] at h
    rw [← h]; simp
  · rw [if_neg hp] at h
    dsimp only at h
    cases hpi : processInstances colorMap groupMap ((f.name.splitOn tS).headD (""))
        f.content.metadata (fileFolderName f) f.content.instances 0 with
    | error e => rw [hpi] at h; simp at h
    | ok instRows =>
        rw [hpi] at h
        dsimp only at h
        simp only [Except.ok.injEq] at h
        rw [← h]
        intro row hrow
        simp only [Bool.false_eq_true, if_false, List.nil_append] at hrow
        obtain ⟨ann, -, i, irows, hpi2, hr2⟩ :=
          processInstances_rows_mem colorMap groupMap _ _ _ _ _ instRows hpi row hrow
        obtain ⟨cname, color, meta, agroup, aname, -, -, -, hrw⟩ :=
          processInstance_rows_shape colorMap groupMap _ _ _ _ _ irows hpi2 row hr2
        rw [hrw]; rfl

/-- Every stub row added by `include_classes_wo_annotations` carries the name
of a class from the classes file. -/
theorem classStubRows_class (mainRows : List AnnRecord) (classes : List ClassDef)
    (row : AnnRecord) (h : row ∈ classStubRows mainRows classes) :
    ∃ cd ∈ classes, row.className = some cd.name := by
  unfold classStubRows at h
  obtain ⟨c, hc, hrow⟩ := List.mem_flatMap.mp h
  refine ⟨c, hc, ?_⟩
  by_cases hany : mainRows.any (fun r => decide (r.className = some c.name)) = true
  · rw [if_pos hany] at hrow
    obtain ⟨g, -, hrow2⟩ := List.mem_flatMap.mp hrow
    obtain ⟨a, -, ha⟩ := List.mem_filterMap.mp hrow2
    by_cases hseen : mainRows.any (fun r => decide (r.className = some c.name) &&
        decide (r.attributeGroupName = some g.name) &&
        decide (r.attributeName = some a.name)) = true
    · rw [if_pos hseen] at ha; simp at ha
    · rw [if_neg hseen] at ha
      simp only [Option.some.injEq] at ha
      rw [← ha]
  · rw [if_neg hany] at hrow
    simp only [List.mem_singleton] at hrow
    rw [hrow]

/-- C7: when `classes/classes.json` is absent under the root, aggregation
raises immediately — the legacy-format check of line 178 may fire even
earlier, but an exception is raised either way before any annotation file is
processed — and, the result being an exception, no partial table is
returned. -/
theorem missing_classes_file_fails (root : ProjectRoot) (icw ic it : Bool)
    (folder_names : Option (List String)) (h : root.classesJson = none) :
    ∃ e, aggregate_image_annotations_as_df root icw ic it folder_names
      = Except.error e := by
  unfold aggregate_image_annotations_as_df
  by_cases hl : legacyExport root.files = true
  · rw [if_pos hl]
    exact ⟨AggErr.depricatedDocVideo, rfl⟩
  · rw [if_neg hl, h]
    exact ⟨AggErr.missingClassesFile, rfl⟩

/-- Witness for `missing_classes_file_fails`: an export root with no classes
file. -/
theorem missing_classes_file_fails_witness :
    ∃ e, aggregate_image_annotations_as_df ⟨none, []⟩ false false false none
      = Except.error e :=
  missing_classes_file_fails ⟨none, []⟩ false false false none rfl

/-- C4: an instance whose `className` is missing or not a key of the class
table contributes zero records and cannot raise — the skip of lines 340-348
precedes the geometry extraction; and in any completed aggregation every row's
class name is `None` (comment/tag rows) or the name of a class of the classes
file, so a class absent from `classes.json` (the spec's `"pedestrian"`
example) appears neither in the output table nor in the class-color map built
from the classes file. -/
theorem unknown_class_skipped (colorMap : List (String × JVal))
    (groupMap : List (String × List (String × List String)))
    (image_name : String) (imeta : MetaBlock) (folderName : Option String)
    (instId : ℕ) (ann : JsonInstance)
    (hclass : ann.className = none ∨
      ∀ c, ann.className = some c → dictLookup colorMap c = none)
    (root : ProjectRoot) (classes : List ClassDef) (icw ic it : Bool)
    (folder_names : Option (List String)) (rows : List AnnRecord)
    (hroot : root.classesJson = some classes)
    (hrun : aggregate_image_annotations_as_df root icw ic it folder_names
      = Except.ok rows) :
    processInstance colorMap groupMap image_name imeta folderName instId ann
      = Except.ok [] ∧
    ∀ row ∈ rows, row.className = none ∨
      ∃ cd ∈ classes, row.className = some cd.name := by
  constructor
  · unfold processInstance
    cases hcn : ann.className with
    | none => rfl
    | some c =>
        rcases hclass with h0 | h0
        · rw [hcn] at h0; simp at h0
        · have hlk := h0 c hcn
          dsimp only
          rw [hlk]
  · unfold aggregate_image_annotations_as_df at hrun
    by_cases hl : legacyExport root.files = true
    · rw [if_pos hl] at hrun; simp at hrun
    · rw [if_neg hl, hroot] at hrun
      dsimp only at hrun
      cases hpf : processFiles (buildColorMap classes) (buildGroupMap classes)
          (if root.files.any (fun f => f.name.endsWith objSuffix) then objSuffix
            else pixelSuffix) ic it (discoverPaths root.files folder_names) with
      | error e => rw [hpf] at hrun; simp at hrun
      | ok mainRows =>
          rw [hpf] at hrun
          dsimp only at hrun
          simp only [Except.ok.injEq] at hrun
          intro row hrow
          rw [← hrun] at hrow
          have hmain : ∀ r ∈ mainRows, r.className = none ∨
              ∃ cd ∈ classes, r.className = some cd.name := by
            intro r hr
            obtain ⟨f2, -, frows, hf2, hr2⟩ :=
              processFiles_rows_mem _ _ _ _ _ _ mainRows hpf r hr
            rcases processFile_row_class _ _ _ _ _ _ frows hf2 r hr2 with h1 | h1
            · exact Or.inl h1
            · obtain ⟨c, v, hc, hv⟩ := h1
              obtain ⟨cd, hcd, hn⟩ := buildColorMap_key_mem classes c v hv
              exact Or.inr ⟨cd, hcd, by rw [hc, hn]⟩
          rcases Bool.eq_false_or_eq_true icw with hicw | hicw
          · rw [hicw] at hrow
            rw [if_pos rfl] at hrow
            rcases List.mem_append.mp hrow with h1 | h1
            · exact hmain row h1
            · obtain ⟨cd, hcd, hn⟩ := classStubRows_class mainRows classes row h1
              exact Or.inr ⟨cd, hcd, hn⟩
          · rw [hicw] at hrow
            rw [if_neg Bool.false_ne_true] at hrow
            exact hmain row hrow

/-- Witness for `unknown_class_skipped` on the `c4root` aggregation. -/
theorem unknown_class_skipped_witness :
    processInstance (buildColorMap c4classes) (buildGroupMap c4classes) "img" {}
      none 0 c4ann = Except.ok [] ∧
    ∀ row ∈ [c4row], row.className = none ∨
      ∃ cd ∈ c4classes, row.className = some cd.name :=
  unknown_class_skipped (buildColorMap c4classes) (buildGroupMap c4classes) "img" {}
    none 0 c4ann
    (Or.inr (fun c hc => by
      simp only [c4ann] at hc
      injection hc with hc2
      rw [← hc2]
      with_unfolding_all decide))
    c4root c4classes false false false none [c4row] rfl
    (by with_unfolding_all decide)

/-- C5: record counts of the Normalizer for an instance with a known class and
an extractable geometry payload.  No attributes (absent or empty list, both
falsy on line 383) yield exactly one record with group and name unset; a
non-empty attribute list yields exactly one record per pair on which
`attrRecord` validates (`attrRecord` returns `some` precisely on the
(group, name) pairs present in the class table, lines 405-427); an instance
all of whose attributes fail validation yields zero records. -/
theorem normalizer_record_counts (colorMap : List (String × JVal))
    (groupMap : List (String × List (String × List String)))
    (image_name : String) (imeta : MetaBlock) (folderName : Option String)
    (instId : ℕ) (ann : JsonInstance) (cname : String) (color : JVal)
    (meta : Option AMeta)
    (hcn : ann.className = some cname)
    (hcolor : dictLookup colorMap cname = some color)
    (hmeta : extractMeta (ann.type.getD ("mask")) ann = Except.ok meta) :
    ((ann.attributes = none ∨ ann.attributes = some []) →
      processInstance colorMap groupMap image_name imeta folderName instId ann
        = Except.ok [mkInstRecord image_name imeta instId cname none none
            (ann.type.getD ("mask")) ann meta color folderName
            (getUserMeta ann.createdAt ann.updatedAt ann.creationType
              ann.createdBy ann.updatedBy)]) ∧
    (∀ attrs, ann.attributes = some attrs → attrs ≠ [] →
      processInstance colorMap groupMap image_name imeta folderName instId ann
        = Except.ok (attrs.filterMap (attrRecord ((dictLookup groupMap cname).getD [])
            (fun agroup aname => mkInstRecord image_name imeta instId cname agroup aname
              (ann.type.getD ("mask")) ann meta color folderName
              (getUserMeta ann.createdAt ann.updatedAt ann.creationType
                ann.createdBy ann.updatedBy))))) ∧
    (∀ attrs, ann.attributes = some attrs → attrs ≠ [] →
      (∀ a ∈ attrs, attrRecord ((dictLookup groupMap cname).getD [])
          (fun agroup aname => mkInstRecord image_name imeta instId cname agroup aname
            (ann.type.getD ("mask")) ann meta color folderName
            (getUserMeta ann.createdAt ann.updatedAt ann.creationType
              ann.createdBy ann.updatedBy)) a = none) →
      processInstance colorMap groupMap image_name imeta folderName instId ann
        = Except.ok []) := by
  have hbase : ∀ attrsVal, ann.attributes = attrsVal →
      processInstance colorMap groupMap image_name imeta folderName instId ann
        = (match attrsVal with
          | none => Except.ok [mkInstRecord image_name imeta instId cname none none
              (ann.type.getD ("mask")) ann meta color folderName
              (getUserMeta ann.createdAt ann.updatedAt ann.creationType
                ann.createdBy ann.updatedBy)]
          | some [] => Except.ok [mkInstRecord image_name imeta instId cname none none
              (ann.type.getD ("mask")) ann meta color folderName
              (getUserMeta ann.createdAt ann.updatedAt ann.creationType
                ann.createdBy ann.updatedBy)]
          | some attrs => Except.ok (attrs.filterMap
              (attrRecord ((dictLookup groupMap cname).getD [])
                (fun agroup aname => mkInstRecord image_name imeta instId cname agroup
                  aname (ann.type.getD ("mask")) ann meta color folderName
                  (getUserMeta ann.createdAt ann.updatedAt ann.creationType
                    ann.createdBy ann.updatedBy))))) := by
    intro attrsVal hattrs
    unfold processInstance
    dsimp only
    rw [hcn]
    dsimp only
    rw [hcolor]
    dsimp only
    rw [hmeta]
    dsimp only
    rw [hattrs]
  refine ⟨?_, ?_, ?_⟩
  · intro hattr
    rcases hattr with ha | ha
    · rw [hbase none ha]
    · rw [hbase (some []) ha]
  · intro attrs hattrs hne
    rw [hbase (some attrs) hattrs]
    cases attrs with
    | nil => exact absurd rfl hne
    | cons a t => rfl
  · intro attrs hattrs hne hall
    rw [hbase (some attrs) hattrs]
    cases attrs with
    | nil => exact absurd rfl hne
    | cons a t =>
        dsimp only
        rw [List.filterMap_eq_nil_iff.mpr hall]

/-- Witness for `normalizer_record_counts` at `c5ann`. -/
theorem normalizer_record_counts_witness :
    ((c5ann.attributes = none ∨ c5ann.attributes = some []) →
      processInstance (buildColorMap c5classes) (buildGroupMap c5classes) "img" {}
          none 0 c5ann
        = Except.ok [mkInstRecord ("img") {} 0 ("car") none none
            (c5ann.type.getD ("mask")) c5ann (some (AMeta.points (JVal.blob ("p"))))
            (JVal.blob ("red")) none
            (getUserMeta c5ann.createdAt c5ann.updatedAt c5ann.creationType
              c5ann.createdBy c5ann.updatedBy)]) ∧
    (∀ attrs, c5ann.attributes = some attrs → attrs ≠ [] →
      processInstance (buildColorMap c5classes) (buildGroupMap c5classes) "img" {}
          none 0 c5ann
        = Except.ok (attrs.filterMap
            (attrRecord ((dictLookup (buildGroupMap c5classes) "car").getD [])
              (fun agroup aname => mkInstRecord ("img") {} 0 ("car") agroup aname
                (c5ann.type.getD ("mask")) c5ann (some (AMeta.points (JVal.blob ("p"))))
                (JVal.blob ("red")) none
                (getUserMeta c5ann.createdAt c5ann.updatedAt c5ann.creationType
                  c5ann.createdBy c5ann.updatedBy))))) ∧
    (∀ attrs, c5ann.attributes = some attrs → attrs ≠ [] →
      (∀ a ∈ attrs, attrRecord ((dictLookup (buildGroupMap c5classes) "car").getD [])
          (fun agroup aname => mkInstRecord ("img") {} 0 ("car") agroup aname
            (c5ann.type.getD ("mask")) c5ann (some (AMeta.points (JVal.blob ("p"))))
            (JVal.blob ("red")) none
            (getUserMeta c5ann.createdAt c5ann.updatedAt c5ann.creationType
              c5ann.createdBy c5ann.updatedBy)) a = none) →
      processInstance (buildColorMap c5classes) (buildGroupMap c5classes) "img" {}
          none 0 c5ann = Except.ok []) :=
  normalizer_record_counts (buildColorMap c5classes) (buildGroupMap c5classes)
    "img" {} none 0 c5ann ("car") (JVal.blob ("red"))
    (some (AMeta.points (JVal.blob ("p"))))
    (by with_unfolding_all decide) (by with_unfolding_all decide)
    (by with_unfolding_all decide)

theorem extractMeta_mask_none (ann : JsonInstance) (hp : ann.parts = none) :
    extractMeta ("mask") ann = Except.error AggErr.keyError := by
  unfold extractMeta
  rw [if_neg (by decide), if_neg (by decide), if_neg (by decide), if_pos rfl, hp]

theorem extractMeta_mask_some (ann : JsonInstance) (p : JVal) (hp : ann.parts = some p) :
    extractMeta ("mask") ann = Except.ok (some (AMeta.maskParts p)) := by
  unfold extractMeta
  rw [if_neg (by decide), if_neg (by decide), if_neg (by decide), if_pos rfl, hp]

/-- C10: an instance with no `type` field at all is processed as type
`"mask"` (`annotation.get("type", "mask")`, line 338): it is not skipped —
with `parts` present and no attributes it yields exactly one record — but
with `parts` absent the aggregation raises `KeyError`
(`annotation["parts"]`, line 368); and every record it yields carries type
`"mask"` and the `parts` payload as its geometry. -/
theorem missing_type_defaults_to_mask (colorMap : List (String × JVal))
    (groupMap : List (String × List (String × List String)))
    (image_name : String) (imeta : MetaBlock) (folderName : Option String)
    (instId : ℕ) (ann : JsonInstance) (cname : String) (color : JVal)
    (htype : ann.type = none)
    (hcn : ann.className = some cname)
    (hcolor : dictLookup colorMap cname = some color) :
    (ann.parts = none →
      processInstance colorMap groupMap image_name imeta folderName instId ann
        = Except.error AggErr.keyError) ∧
    (∀ p, ann.parts = some p → ann.attributes = none →
      processInstance colorMap groupMap image_name imeta folderName instId ann
        = Except.ok [mkInstRecord image_name imeta instId cname none none ("mask") ann
            (some (AMeta.maskParts p)) color folderName
            (getUserMeta ann.createdAt ann.updatedAt ann.creationType
              ann.createdBy ann.updatedBy)]) ∧
    (∀ p rows, ann.parts = some p →
      processInstance colorMap groupMap image_name imeta folderName instId ann
        = Except.ok rows →
      ∀ row ∈ rows, row.type = some ("mask") ∧ row.meta = some (AMeta.maskParts p)) := by
  have hT : ann.type.getD ("mask") = "mask" := by rw [htype]; rfl
  refine ⟨?_, ?_, ?_⟩
  · intro hp
    unfold processInstance
    dsimp only
    rw [hcn]
    dsimp only
    rw [hcolor]
    dsimp only
    rw [hT, extractMeta_mask_none ann hp]
  · intro p hp hattr
    unfold processInstance
    dsimp only
    rw [hcn]
    dsimp only
    rw [hcolor]
    dsimp only
    rw [hT, extractMeta_mask_some ann p hp]
    dsimp only
    rw [hattr]
  · intro p rows hp hrun row hrow
    obtain ⟨cname2, color2, meta2, agroup, aname, -, -, hext, hrw⟩ :=
      processInstance_rows_shape colorMap groupMap image_name imeta folderName instId
        ann rows hrun row hrow
    rw [hT, extractMeta_mask_some ann p hp] at hext
    simp only [Except.ok.injEq] at hext
    rw [hT] at hrw
    rw [hrw, ← hext]
    exact ⟨rfl, rfl⟩

/-- Witness for `missing_type_defaults_to_mask` at `c10ann` (its first
conjunct holds vacuously; the second and third are exercised). -/
theorem missing_type_defaults_to_mask_witness :
    (c10ann.parts = none →
      processInstance (buildColorMap c4classes) (buildGroupMap c4classes) "img" {}
        none 0 c10ann = Except.error AggErr.keyError) ∧
    (∀ p, c10ann.parts = some p → c10ann.attributes = none →
      processInstance (buildColorMap c4classes) (buildGroupMap c4classes) "img" {}
          none 0 c10ann
        = Except.ok [mkInstRecord ("img") {} 0 ("car") none none ("mask") c10ann
            (some (AMeta.maskParts p)) (JVal.blob ("red")) none
            (getUserMeta c10ann.createdAt c10ann.updatedAt c10ann.creationType
              c10ann.createdBy c10ann.updatedBy)]) ∧
    (∀ p rows, c10ann.parts = some p →
      processInstance (buildColorMap c4classes) (buildGroupMap c4classes) "img" {}
          none 0 c10ann = Except.ok rows →
      ∀ row ∈ rows, row.type = some ("mask") ∧ row.meta = some (AMeta.maskParts p)) :=
  missing_type_defaults_to_mask (buildColorMap c4classes) (buildGroupMap c4classes)
    "img" {} none 0 c10ann ("car") (JVal.blob ("red"))
    (by with_unfolding_all decide) (by with_unfolding_all decide)
    (by with_unfolding_all decide)

/-- C8 (amended): with comment and tag rows disabled, every record of a
completed aggregation comes from a discovered annotation file and carries the
file's **immediate parent directory** name as `folderName`
(`annotation_path.parent.name`, lines 379-381), `None` exactly for files
directly under the root.  For a file nested deeper than one level below a
named subfolder this is the innermost directory, not the subfolder's
top-level name. -/
theorem folder_name_is_parent_dir (root : ProjectRoot)
    (folder_names : Option (List String)) (rows : List AnnRecord)
    (h : aggregate_image_annotations_as_df root false false false folder_names
      = Except.ok rows) :
    ∀ row ∈ rows, ∃ f ∈ discoverPaths root.files folder_names,
      row.folderName = fileFolderName f := by
  unfold aggregate_image_annotations_as_df at h
  by_cases hl : legacyExport root.files = true
  · rw [if_pos hl] at h; simp at h
  · rw [if_neg hl] at h
    cases hcj : root.classesJson with
    | none => rw [hcj] at h; simp at h
    | some classes =>
        rw [hcj] at h
        dsimp only at h
        cases hpf : processFiles (buildColorMap classes) (buildGroupMap classes)
            (if root.files.any (fun f => f.name.endsWith objSuffix) then objSuffix
              else pixelSuffix) false false (discoverPaths root.files folder_names) with
        | error e => rw [hpf] at h; simp at h
        | ok mainRows =>
            rw [hpf] at h
            dsimp only at h
            simp only [Except.ok.injEq] at h
            rw [if_neg Bool.false_ne_true] at h
            intro row hrow
            rw [← h] at hrow
            obtain ⟨f2, hf2, frows, hpf2, hr2⟩ :=
              processFiles_rows_mem _ _ _ _ _ _ mainRows hpf row hrow
            exact ⟨f2, hf2, processFile_row_folder _ _ _ _ frows hpf2 row hr2⟩

/-- C8 counterexample.  The file `sub/inner/img___objects.json` lies nested
under the named subfolder `sub`, whose top-level name the claim prescribes;
the code instead stores `annotation_path.parent.name` (line 381), the
immediate parent `"inner"`. -/
theorem folder_name_counterexample :
    (aggregate_image_annotations_as_df c8root false false false none).map
        (fun rows => rows.map (fun r => r.folderName)) = Except.ok [some ("inner")] ∧
    (some ("inner") : Option String) ≠ some ("sub") := by
  constructor
  · with_unfolding_all decide
  · decide

/-- Witness for `folder_name_is_parent_dir`: the single row of the `c8root`
aggregation carries the parent-directory folder name of a discovered file. -/
theorem folder_name_is_parent_dir_witness :
    ∃ f ∈ discoverPaths c8root.files none, c8row.folderName = fileFolderName f :=
  folder_name_is_parent_dir c8root none [c8row] (by with_unfolding_all decide) c8row
    (by with_unfolding_all decide)
